import Mathlib

/-!
Stacker: directory tree generator

A shallow embedding of `main.go`: the configuration model, `shouldSkip`,
`loadConfig`, `runTerramateCommand` and the four nested loops of `main`.

Calls that leave the program (`ioutil.ReadFile`, `yaml.Unmarshal`, `os.Mkdir`,
`exec.Cmd.Run`) are fields of a `Sys` record acting on an explicit world state;
every run returns the list of events it issued together with the final world.
-/

namespace Stacker

/-! ## Data model (main.go, lines 12-31) -/

structure ExcludeConfig where
  Environments : List String
  Regions : List String
  deriving DecidableEq, Repr

structure Resource where
  Name : String
  ExcludeFrom : ExcludeConfig
  deriving DecidableEq, Repr

structure Subscription where
  Name : String
  Resources : List Resource
  deriving DecidableEq, Repr

structure Config where
  Subscriptions : List Subscription
  Environments : List String
  Regions : List String
  deriving DecidableEq, Repr

/-! ## strings.EqualFold

The Go library function compares the two strings rune by rune. Two runes match
when they are equal, or when both are ASCII and are the upper and lower case of
one letter; for a pair with a non-ASCII rune the library consults the
`unicode.SimpleFold` table, which is outside the repository: the outcome of
that lookup is the parameter `uf` (called with the smaller rune first).
Strings are sequences of Unicode scalar values (valid UTF-8). -/

/-- One step of the rune loop of `strings.EqualFold`. -/
def runeEqualFold (uf : Char → Char → Bool) (sr tr : Char) : Bool :=
  if tr = sr then true
  else
    -- Make sr < tr to simplify what follows.
    let lo := if tr < sr then tr else sr
    let hi := if tr < sr then sr else tr
    if hi.toNat < 0x80 then
      -- ASCII only, sr/tr must be upper/lower case
      decide ('A' ≤ lo ∧ lo ≤ 'Z' ∧ hi.toNat = lo.toNat + ('a'.toNat - 'A'.toNat))
    else
      uf lo hi

/-- The rune loop of `strings.EqualFold`: both strings must run out together. -/
def equalFoldRunes (uf : Char → Char → Bool) : List Char → List Char → Bool
  | [], [] => true
  | [], _ :: _ => false
  | _ :: _, [] => false
  | sr :: s, tr :: t => if runeEqualFold uf sr tr then equalFoldRunes uf s t else false

/-- Go `strings.EqualFold(s, t)`. -/
def EqualFold (uf : Char → Char → Bool) (s t : String) : Bool :=
  equalFoldRunes uf s.data t.data

/-! ## shouldSkip (main.go, lines 96-108) -/

/-- A `for _, x := range xs { if strings.EqualFold(v, x) { return true } }` loop:
`true` when the loop returns, `false` when it falls through. -/
def foldMatch (uf : Char → Char → Bool) (v : String) : List String → Bool
  | [] => false
  | x :: xs => if EqualFold uf v x then true else foldMatch uf v xs

def shouldSkip (uf : Char → Char → Bool) (resource : Resource) (env region : String) : Bool :=
  if foldMatch uf env resource.ExcludeFrom.Environments then true
  else if foldMatch uf region resource.ExcludeFrom.Regions then true
  else false

/-! ## The outside world -/

/-- An error returned by `os.Mkdir`: its text, and what `os.IsExist` says of it. -/
structure OSError where
  msg : String
  isExist : Bool
  deriving DecidableEq, Repr

/-- The calls that leave the program, over a world state `W`. A Go `error` is
`some` of its text (`none` is `nil`). -/
structure Sys (W : Type) where
  /-- Go `ioutil.ReadFile(filename)`. -/
  readFile : String → W → Except String String × W
  /-- Go `yaml.Unmarshal(data, &config)` on a zero `Config`. -/
  unmarshal : String → Except String Config
  /-- Go `os.Mkdir(path, perm)`. -/
  mkdir : String → Nat → W → Option OSError × W
  /-- Go `exec.Command(name, args...).Run()`, output passed through. -/
  run : String → List String → W → Option String × W

/-- What a run does, in order. Calls carry the result they returned. -/
inductive Event where
  | readFile (name : String)
  | mkdir (path : String) (perm : Nat) (res : Option OSError)
  | exec (name : String) (args : List String) (res : Option String)
  | print (s : String)
  deriving DecidableEq, Repr

/-- The guard `err != nil && !os.IsExist(err)` of the four `os.Mkdir` calls:
the text of the error when the guard holds. -/
def mkdirError : Option OSError → Option String
  | none => none
  | some e => if e.isExist then none else some e.msg

/-! ## runTerramateCommand (main.go, lines 110-117) -/

def runTerramateCommand {W : Type} (sys : Sys W) (folder tags : String) (w : W) :
    Option String × List Event × W :=
  let name := "terramate"
  let args := ["create", "--tags", tags, folder]
  let line := "Running terramate command in folder: " ++ folder ++ " with tags: " ++ tags ++ "\n"
  let (err, w1) := sys.run name args w
  (err, [Event.print line, Event.exec name args err], w1)

/-! ## The loops of main (main.go, lines 40-79) -/

/-- A `for _, x := range xs` loop whose body runs in the world the previous
iteration left; `continue` is the body returning early. -/
def forEach {α W : Type} (body : α → W → List Event × W) : List α → W → List Event × W
  | [], w => ([], w)
  | x :: xs, w =>
    let (t1, w1) := body x w
    let (t2, w2) := forEach body xs w1
    (t1 ++ t2, w2)

/-- Body of the resource loop (lines 61-76). -/
def resourceBody {W : Type} (uf : Char → Char → Bool) (sys : Sys W) (sub : Subscription)
    (env region regionFolder : String) (resource : Resource) (w : W) : List Event × W :=
  if shouldSkip uf resource env region then ([], w)
  else
    let resourceFolder := regionFolder ++ "/" ++ resource.Name
    let (err, w1) := sys.mkdir resourceFolder 0o755 w
    match mkdirError err with
    | some m =>
      ([Event.mkdir resourceFolder 0o755 err,
        Event.print ("Error creating resource folder \x27" ++ resourceFolder ++ "\x27: " ++ m ++ "\n")],
       w1)
    | none =>
      let tags := ",".intercalate [sub.Name, resource.Name, region, env]
      let (err2, t, w2) := runTerramateCommand sys resourceFolder tags w1
      match err2 with
      | some m2 =>
        (Event.mkdir resourceFolder 0o755 err :: t ++
          [Event.print ("Error running terramate command in \x27" ++ resourceFolder ++ "\x27: " ++ m2 ++ "\n")],
         w2)
      | none => (Event.mkdir resourceFolder 0o755 err :: t, w2)

/-- Body of the region loop (lines 54-77). -/
def regionBody {W : Type} (uf : Char → Char → Bool) (sys : Sys W) (sub : Subscription)
    (env envFolder : String) (region : String) (w : W) : List Event × W :=
  let regionFolder := envFolder ++ "/" ++ region
  let (err, w1) := sys.mkdir regionFolder 0o755 w
  match mkdirError err with
  | some m =>
    ([Event.mkdir regionFolder 0o755 err,
      Event.print ("Error creating region folder \x27" ++ regionFolder ++ "\x27: " ++ m ++ "\n")],
     w1)
  | none =>
    let (t, w2) := forEach (resourceBody uf sys sub env region regionFolder) sub.Resources w1
    (Event.mkdir regionFolder 0o755 err :: t, w2)

/-- Body of the environment loop (lines 47-78). -/
def envBody {W : Type} (uf : Char → Char → Bool) (sys : Sys W) (config : Config)
    (sub : Subscription) (subFolder : String) (env : String) (w : W) : List Event × W :=
  let envFolder := subFolder ++ "/" ++ env
  let (err, w1) := sys.mkdir envFolder 0o755 w
  match mkdirError err with
  | some m =>
    ([Event.mkdir envFolder 0o755 err,
      Event.print ("Error creating environment folder \x27" ++ envFolder ++ "\x27: " ++ m ++ "\n")],
     w1)
  | none =>
    let (t, w2) := forEach (regionBody uf sys sub env envFolder) config.Regions w1
    (Event.mkdir envFolder 0o755 err :: t, w2)

/-- Body of the subscription loop (lines 40-79). -/
def subBody {W : Type} (uf : Char → Char → Bool) (sys : Sys W) (config : Config)
    (sub : Subscription) (w : W) : List Event × W :=
  let subFolder := sub.Name
  let (err, w1) := sys.mkdir subFolder 0o755 w
  match mkdirError err with
  | some m =>
    ([Event.mkdir subFolder 0o755 err,
      Event.print ("Error creating subscription folder \x27" ++ subFolder ++ "\x27: " ++ m ++ "\n")],
     w1)
  | none =>
    let (t, w2) := forEach (envBody uf sys config sub subFolder) config.Environments w1
    (Event.mkdir subFolder 0o755 err :: t, w2)

/-- The tree walk of `main` over a loaded configuration (lines 40-79). -/
def walk {W : Type} (uf : Char → Char → Bool) (sys : Sys W) (config : Config) (w : W) :
    List Event × W :=
  forEach (subBody uf sys config) config.Subscriptions w

/-! ## loadConfig and main (main.go, lines 33-38 and 82-94) -/

def loadConfig {W : Type} (sys : Sys W) (filename : String) (w : W) :
    Except String Config × List Event × W :=
  match sys.readFile filename w with
  | (Except.error e, w1) =>
    (Except.error ("failed to read file: " ++ e), [Event.readFile filename], w1)
  | (Except.ok data, w1) =>
    match sys.unmarshal data with
    | Except.error e => (Except.error ("failed to parse YAML: " ++ e), [Event.readFile filename], w1)
    | Except.ok config => (Except.ok config, [Event.readFile filename], w1)

def main {W : Type} (uf : Char → Char → Bool) (sys : Sys W) (w : W) : List Event × W :=
  match loadConfig sys "config.yml" w with
  | (Except.error e, t0, w1) => (t0 ++ [Event.print ("Error loading config: " ++ e ++ "\n")], w1)
  | (Except.ok config, t0, w1) =>
    let (t, w2) := walk uf sys config w1
    (t0 ++ t, w2)

/-! ## Observations on a run -/

/-- A call that leaves the program, without its result. -/
inductive Call where
  | mkdir (path : String) (perm : Nat)
  | exec (name : String) (args : List String)
  deriving DecidableEq, Repr

def issued : Event → Option Call
  | Event.mkdir path perm _ => some (Call.mkdir path perm)
  | Event.exec name args _ => some (Call.exec name args)
  | _ => none

/-- The directory creations and command invocations of a run, in order. -/
def calls (t : List Event) : List Call := t.filterMap issued

def cmdOf : Event → Option (String × List String)
  | Event.exec name args _ => some (name, args)
  | _ => none

/-- The command invocations of a run, in order: executable and argument list. -/
def cmdCalls (t : List Event) : List (String × List String) := t.filterMap cmdOf

def mkdirOf : Event → Option String
  | Event.mkdir path _ _ => some path
  | _ => none

/-- The paths handed to `os.Mkdir` in a run, in order. -/
def mkdirCalls (t : List Event) : List String := t.filterMap mkdirOf

def mkdirResultOf : Event → Option (String × Nat × Option OSError)
  | Event.mkdir path perm res => some (path, perm, res)
  | _ => none

/-- The directory creations of a run with the results they returned. -/
def mkdirResults (t : List Event) : List (String × Nat × Option OSError) :=
  t.filterMap mkdirResultOf

/-- The event is an `os.Mkdir` that returned an error other than already-exists. -/
def mkdirFailed : Event → Bool
  | Event.mkdir _ _ res => (mkdirError res).isSome
  | _ => false

/-- No directory creation of the run failed: each returned `nil` or an
already-exists error. -/
def noMkdirFail (t : List Event) : Bool := t.all (fun ev => !mkdirFailed ev)

/-! ## The enumeration the specification describes -/

/-- Tag string: subscription, resource, region, environment joined by commas. -/
def tagsOf (sub : Subscription) (env region : String) (resource : Resource) : String :=
  sub.Name ++ "," ++ resource.Name ++ "," ++ region ++ "," ++ env

/-- Leaf directory `<subscription>/<environment>/<region>/<resource>`. -/
def pathOf (sub : Subscription) (env region : String) (resource : Resource) : String :=
  sub.Name ++ "/" ++ env ++ "/" ++ region ++ "/" ++ resource.Name

/-- The command line for one combination. -/
def invocation (sub : Subscription) (env region : String) (resource : Resource) :
    String × List String :=
  ("terramate", ["create", "--tags", tagsOf sub env region resource, pathOf sub env region resource])

/-- All (subscription, environment, region, resource) combinations:
subscription-major, then environment, then region, then resource, each in
configuration order. -/
def combos (config : Config) : List (Subscription × String × String × Resource) :=
  config.Subscriptions.flatMap fun sub =>
    config.Environments.flatMap fun env =>
      config.Regions.flatMap fun region =>
        sub.Resources.map fun resource => (sub, env, region, resource)

/-- The command lines of the combinations that are not skipped, in enumeration order. -/
def specCommands (uf : Char → Char → Bool) (config : Config) : List (String × List String) :=
  ((combos config).filter fun x => !shouldSkip uf x.2.2.2 x.2.1 x.2.2.1).map
    fun x => invocation x.1 x.2.1 x.2.2.1 x.2.2.2


/-- What the unskipped resource iteration issues when its directory creation
does not fail: the creation of the leaf directory, then the command. -/
def leafCalls (uf : Char → Char → Bool) (sub : Subscription) (env region : String)
    (resource : Resource) : List Call :=
  if shouldSkip uf resource env region then []
  else [Call.mkdir (pathOf sub env region resource) 0o755,
        Call.exec "terramate"
          ["create", "--tags", tagsOf sub env region resource, pathOf sub env region resource]]

/-- Calls of the resource loop over `rs`, no creation failing. -/
def resCalls (uf : Char → Char → Bool) (sub : Subscription) (env region : String)
    (rs : List Resource) : List Call :=
  rs.flatMap (leafCalls uf sub env region)

/-- Calls of the region loop over `gs`, no creation failing. -/
def regionCalls (uf : Char → Char → Bool) (sub : Subscription) (env : String)
    (gs : List String) : List Call :=
  gs.flatMap fun region =>
    Call.mkdir (sub.Name ++ "/" ++ env ++ "/" ++ region) 0o755 ::
      resCalls uf sub env region sub.Resources

/-- Calls of the environment loop over `es`, no creation failing. -/
def envCalls (uf : Char → Char → Bool) (config : Config) (sub : Subscription)
    (es : List String) : List Call :=
  es.flatMap fun env =>
    Call.mkdir (sub.Name ++ "/" ++ env) 0o755 :: regionCalls uf sub env config.Regions

/-- Calls of the subscription loop over `ss`, no creation failing. -/
def subCalls (uf : Char → Char → Bool) (config : Config) (ss : List Subscription) : List Call :=
  ss.flatMap fun sub =>
    Call.mkdir sub.Name 0o755 :: envCalls uf config sub config.Environments

/-! ### The same enumeration when some creations fail

`F path` says that creating `path` fails with an error other than
already-exists. A failing segment is attempted and nothing beneath it is. -/

def guardedLeaf (uf : Char → Char → Bool) (F : String → Bool) (sub : Subscription)
    (env region : String) (resource : Resource) : List Call :=
  if shouldSkip uf resource env region then []
  else
    Call.mkdir (pathOf sub env region resource) 0o755 ::
      if F (pathOf sub env region resource) then []
      else [Call.exec "terramate"
        ["create", "--tags", tagsOf sub env region resource, pathOf sub env region resource]]

def guardedRegion (uf : Char → Char → Bool) (F : String → Bool) (sub : Subscription)
    (env region : String) : List Call :=
  Call.mkdir (sub.Name ++ "/" ++ env ++ "/" ++ region) 0o755 ::
    if F (sub.Name ++ "/" ++ env ++ "/" ++ region) then []
    else sub.Resources.flatMap (guardedLeaf uf F sub env region)

def guardedEnv (uf : Char → Char → Bool) (F : String → Bool) (config : Config)
    (sub : Subscription) (env : String) : List Call :=
  Call.mkdir (sub.Name ++ "/" ++ env) 0o755 ::
    if F (sub.Name ++ "/" ++ env) then []
    else config.Regions.flatMap (guardedRegion uf F sub env)

def guardedSub (uf : Char → Char → Bool) (F : String → Bool) (config : Config)
    (sub : Subscription) : List Call :=
  Call.mkdir sub.Name 0o755 ::
    if F sub.Name then []
    else config.Environments.flatMap (guardedEnv uf F config sub)

def guardedCalls (uf : Char → Char → Bool) (F : String → Bool) (config : Config) : List Call :=
  config.Subscriptions.flatMap (guardedSub uf F config)

/-- The event, if a directory creation, failed exactly when `F` says so of its path. -/
def agrees (F : String → Bool) : Event → Bool
  | Event.mkdir path _ res => (mkdirError res).isSome == F path
  | _ => true

/-- Every directory creation of the run failed exactly when `F` says so of its path. -/
def followsF (F : String → Bool) (t : List Event) : Bool := t.all (agrees F)

/-- The four creations of an iteration all succeed or report already-exists. -/
def createsOk (F : String → Bool) (sub : Subscription) (env region : String)
    (resource : Resource) : Bool :=
  !F sub.Name && !F (sub.Name ++ "/" ++ env) && !F (sub.Name ++ "/" ++ env ++ "/" ++ region) &&
    !F (pathOf sub env region resource)

/-- The command of a call, if it is one. -/
def execOf : Call → Option (String × List String)
  | Call.exec name args => some (name, args)
  | _ => none

/-- The path of a call, if it is a directory creation. -/
def pathOfCall : Call → Option String
  | Call.mkdir path _ => some path
  | _ => none

/-- The event, if a command invocation, runs `terramate create --tags T P` for
the tags and the path of a combination of the configuration that is not skipped. -/
def ValidExec (uf : Char → Char → Bool) (config : Config) : Event → Prop
  | Event.exec name args _ =>
    name = "terramate" ∧
    ∃ sub ∈ config.Subscriptions, ∃ resource ∈ sub.Resources,
      ∃ env ∈ config.Environments, ∃ region ∈ config.Regions,
        shouldSkip uf resource env region = false ∧
        args = ["create", "--tags", ",".intercalate [sub.Name, resource.Name, region, env],
                sub.Name ++ "/" ++ env ++ "/" ++ region ++ "/" ++ resource.Name]
  | _ => True

/-- An event without what a command returned; log lines are dropped. -/
def observed : Event → Option Event
  | Event.readFile name => some (Event.readFile name)
  | Event.mkdir path perm res => some (Event.mkdir path perm res)
  | Event.exec name args _ => some (Event.exec name args none)
  | Event.print _ => none

/-- The directory paths of the enumeration, in order: the segments
`<subscription>`, `<subscription>/<environment>`,
`<subscription>/<environment>/<region>` and the leaves of the combinations
that are not skipped. -/
def specPaths (uf : Char → Char → Bool) (config : Config) : List String :=
  (subCalls uf config config.Subscriptions).filterMap pathOfCall

/-- The event, if a directory creation, is that of a segment of the
configuration or of the leaf of a combination that is not skipped. -/
def ValidMkdir (uf : Char → Char → Bool) (config : Config) : Event → Prop
  | Event.mkdir path _ _ =>
    (∃ sub ∈ config.Subscriptions, path = sub.Name) ∨
    (∃ sub ∈ config.Subscriptions, ∃ env ∈ config.Environments,
      path = sub.Name ++ "/" ++ env) ∨
    (∃ sub ∈ config.Subscriptions, ∃ env ∈ config.Environments, ∃ region ∈ config.Regions,
      path = sub.Name ++ "/" ++ env ++ "/" ++ region) ∨
    (∃ sub ∈ config.Subscriptions, ∃ resource ∈ sub.Resources,
      ∃ env ∈ config.Environments, ∃ region ∈ config.Regions,
        shouldSkip uf resource env region = false ∧
        path = sub.Name ++ "/" ++ env ++ "/" ++ region ++ "/" ++ resource.Name)
  | _ => True

/-! ### The rest of the walk after an iteration -/

/-- Events of the walk over the later subscriptions `S2`, from the world `w`. -/
def afterSub {W : Type} (uf : Char → Char → Bool) (sys : Sys W) (config : Config)
    (S2 : List Subscription) (w : W) : List Event :=
  (forEach (subBody uf sys config) S2 w).1

/-- Events of the rest of the walk after an environment iteration of `sub`:
the later environments `E2` of `sub`, then the later subscriptions. -/
def afterEnv {W : Type} (uf : Char → Char → Bool) (sys : Sys W) (config : Config)
    (sub : Subscription) (E2 : List String) (S2 : List Subscription) (w : W) : List Event :=
  (forEach (envBody uf sys config sub sub.Name) E2 w).1 ++
    afterSub uf sys config S2 (forEach (envBody uf sys config sub sub.Name) E2 w).2

/-- Events of the rest of the walk after a region iteration: the later regions
`G2`, then the later environments, then the later subscriptions. -/
def afterRegion {W : Type} (uf : Char → Char → Bool) (sys : Sys W) (config : Config)
    (sub : Subscription) (env : String) (G2 E2 : List String) (S2 : List Subscription)
    (w : W) : List Event :=
  (forEach (regionBody uf sys sub env (sub.Name ++ "/" ++ env)) G2 w).1 ++
    afterEnv uf sys config sub E2 S2
      (forEach (regionBody uf sys sub env (sub.Name ++ "/" ++ env)) G2 w).2

/-- Events of the rest of the walk after a resource iteration: the later
resources `R2`, then the later regions, environments and subscriptions. -/
def afterResource {W : Type} (uf : Char → Char → Bool) (sys : Sys W) (config : Config)
    (sub : Subscription) (env region : String) (R2 : List Resource) (G2 E2 : List String)
    (S2 : List Subscription) (w : W) : List Event :=
  (forEach (resourceBody uf sys sub env region (sub.Name ++ "/" ++ env ++ "/" ++ region))
      R2 w).1 ++
    afterRegion uf sys config sub env G2 E2 S2
      (forEach (resourceBody uf sys sub env region (sub.Name ++ "/" ++ env ++ "/" ++ region))
        R2 w).2

/-- The log line of a command that returned an error, if it did. -/
def commandErrorLine (folder : String) : Option String → List Event
  | some m => [Event.print ("Error running terramate command in \x27" ++ folder ++ "\x27: " ++
      m ++ "\n")]
  | none => []

/-! ## Concrete inputs -/

/-- A fold table with no entry: only equal runes and ASCII case pairs match. -/
def asciiFold : Char → Char → Bool := fun _ _ => false

/-- The example of the specification: subscription "payments", environments
dev and prod, regions eu and us, one resource "db" excluded from prod. -/
def exampleConfig : Config :=
  { Subscriptions := [⟨"payments", [⟨"db", ⟨["prod"], []⟩⟩]⟩],
    Environments := ["dev", "prod"],
    Regions := ["eu", "us"] }

/-- A system in which every directory creation and every command succeeds. -/
def okSys : Sys Unit :=
  { readFile := fun _ w => (Except.ok "", w),
    unmarshal := fun _ => Except.ok exampleConfig,
    mkdir := fun _ _ w => (none, w),
    run := fun _ _ w => (none, w) }

/-- A system in which every directory creation succeeds and every command fails. -/
def cmdFailSys : Sys Unit :=
  { readFile := fun _ w => (Except.ok "", w),
    unmarshal := fun _ => Except.ok exampleConfig,
    mkdir := fun _ _ w => (none, w),
    run := fun _ _ w => (some "exit status 1", w) }

/-- A system without a configuration file. -/
def noFileSys : Sys Unit :=
  { readFile := fun name w => (Except.error ("open " ++ name ++ ": no such file or directory"), w),
    unmarshal := fun _ => Except.ok exampleConfig,
    mkdir := fun _ _ w => (none, w),
    run := fun _ _ w => (none, w) }

/-! ## A filesystem as the set of existing directories -/

/-- The world is the list of directories that exist. Creating one that exists
reports already-exists; otherwise `denied` decides whether the creation fails
(missing parent, permissions) and with what message, and a creation that
succeeds adds the directory. A command leaves the set of directories as it is
and returns what `cmd` says. The walk uses neither `readFile` nor `unmarshal`. -/
def fsSys (denied : List String → String → Option String)
    (cmd : String → List String → List String → Option String) : Sys (List String) :=
  { readFile := fun _ fs => (Except.ok "", fs),
    unmarshal := fun _ => Except.ok exampleConfig,
    mkdir := fun path _ fs =>
      if path ∈ fs then (some ⟨"file exists", true⟩, fs)
      else
        match denied fs path with
        | some m => (some ⟨m, false⟩, fs)
        | none => (none, path :: fs),
    run := fun name args fs => (cmd name args fs, fs) }

/-- What a run without a failed creation leaves: nothing is removed, and every
path it handed to `os.Mkdir` exists. -/
def Grown (fs : List String) (r : List Event × List String) : Prop :=
  noMkdirFail r.1 = true → (∀ p ∈ fs, p ∈ r.2) ∧ (∀ p ∈ mkdirCalls r.1, p ∈ r.2)

/-- The filesystem model in which no creation is ever denied. -/
def openFs (cmd : String → List String → List String → Option String) : Sys (List String) :=
  fsSys (fun _ _ => none) cmd

/-- Two subscriptions "a" and "b", each with one resource "db" that is excluded
nowhere, one environment and one region. -/
def twoSubConfig : Config :=
  { Subscriptions := [⟨"a", [⟨"db", ⟨[], []⟩⟩]⟩, ⟨"b", [⟨"db", ⟨[], []⟩⟩]⟩],
    Environments := ["dev"],
    Regions := ["eu"] }

/-- One subscription "s" listing the resource "r" twice, the environment "dev"
listed twice, one region. -/
def dupConfig : Config :=
  { Subscriptions := [⟨"s", [⟨"r", ⟨[], []⟩⟩, ⟨"r", ⟨[], []⟩⟩]⟩],
    Environments := ["dev", "dev"],
    Regions := ["eu"] }

/-- One subscription "s" with two resources named "r", the first excluded from
"dev" and the second excluded nowhere. -/
def shadowConfig : Config :=
  { Subscriptions := [⟨"s", [⟨"r", ⟨["dev"], []⟩⟩, ⟨"r", ⟨[], []⟩⟩]⟩],
    Environments := ["dev"],
    Regions := ["eu"] }

/-- Environments "x/y" and "x" with region "y": the walk asks twice for the
directory a/x/y, first as an environment segment and then as a region segment. -/
def nestedConfig : Config :=
  { Subscriptions := [⟨"a", [⟨"db", ⟨[], []⟩⟩]⟩],
    Environments := ["x/y", "x"],
    Regions := ["y"] }

/-- A filesystem in which a creation fails when a parent it needs is missing:
the listed pairs give, for a path, the parent that has to exist. -/
def parentFs (parents : List (String × String)) : Sys (List String) :=
  fsSys (fun fs path =>
      match parents.lookup path with
      | some parent => if parent ∈ fs then none else some "no such file or directory"
      | none => none)
    (fun _ _ _ => none)

/-! ## Loops -/

theorem forEach_nil {α W : Type} (body : α → W → List Event × W) (w : W) :
    forEach body [] w = ([], w) := rfl

theorem forEach_cons {α W : Type} (body : α → W → List Event × W) (x : α) (xs : List α)
    (w : W) :
    forEach body (x :: xs) w =
      ((body x w).1 ++ (forEach body xs (body x w).2).1, (forEach body xs (body x w).2).2) := rfl

theorem forEach_append {α W : Type} (body : α → W → List Event × W) (xs ys : List α) (w : W) :
    forEach body (xs ++ ys) w =
      ((forEach body xs w).1 ++ (forEach body ys (forEach body xs w).2).1,
       (forEach body ys (forEach body xs w).2).2) := by
  induction xs generalizing w with
  | nil => simp [forEach_nil]
  | cons x xs ih => simp [forEach_cons, ih, List.append_assoc]

/-- A projection of the trace of a loop is the concatenation of what the
iterations contribute, when each iteration, under a condition `P` that splits
over concatenation, contributes `f x` whatever the world. -/
theorem forEach_filterMap {α β W : Type} (g : Event → Option β) (P : List Event → Prop)
    (hP : ∀ a b, P (a ++ b) → P a ∧ P b) (body : α → W → List Event × W) (f : α → List β)
    (xs : List α)
    (h : ∀ x ∈ xs, ∀ w, P (body x w).1 → (body x w).1.filterMap g = f x) :
    ∀ w, P (forEach body xs w).1 → (forEach body xs w).1.filterMap g = xs.flatMap f := by
  induction xs with
  | nil => intro w _; simp [forEach_nil]
  | cons x xs ih =>
    intro w hw
    rw [forEach_cons] at hw
    obtain ⟨h1, h2⟩ := hP _ _ hw
    rw [forEach_cons, List.filterMap_append, h x (List.mem_cons_self x xs) w h1,
      ih (fun y hy => h y (List.mem_cons_of_mem x hy)) _ h2]
    simp [List.flatMap_cons]

/-- A property of events holds of a whole loop when every iteration keeps it. -/
theorem forEach_forall {α W : Type} (Q : Event → Prop) (body : α → W → List Event × W)
    (xs : List α) (h : ∀ x ∈ xs, ∀ w, ∀ ev ∈ (body x w).1, Q ev) :
    ∀ w, ∀ ev ∈ (forEach body xs w).1, Q ev := by
  induction xs with
  | nil => intro w ev hev; simp [forEach_nil] at hev
  | cons x xs ih =>
    intro w ev hev
    rw [forEach_cons, List.mem_append] at hev
    rcases hev with hev | hev
    · exact h x (List.mem_cons_self x xs) w ev hev
    · exact ih (fun y hy => h y (List.mem_cons_of_mem x hy)) _ ev hev

/-! ## The two ways through each loop body -/

theorem resourceBody_skip {W : Type} (uf : Char → Char → Bool) (sys : Sys W) (sub : Subscription)
    (env region regionFolder : String) (resource : Resource) (w : W)
    (hs : shouldSkip uf resource env region = true) :
    resourceBody uf sys sub env region regionFolder resource w = ([], w) := by
  simp [resourceBody, hs]

theorem resourceBody_fail {W : Type} (uf : Char → Char → Bool) (sys : Sys W) (sub : Subscription)
    (env region regionFolder : String) (resource : Resource) (w : W) (m : String)
    (hs : shouldSkip uf resource env region = false)
    (hm : mkdirError (sys.mkdir (regionFolder ++ "/" ++ resource.Name) 0o755 w).1 = some m) :
    resourceBody uf sys sub env region regionFolder resource w =
      ([Event.mkdir (regionFolder ++ "/" ++ resource.Name) 0o755
          (sys.mkdir (regionFolder ++ "/" ++ resource.Name) 0o755 w).1,
        Event.print ("Error creating resource folder \x27" ++
          (regionFolder ++ "/" ++ resource.Name) ++ "\x27: " ++ m ++ "\n")],
       (sys.mkdir (regionFolder ++ "/" ++ resource.Name) 0o755 w).2) := by
  simp [resourceBody, hs, hm]

theorem resourceBody_ok {W : Type} (uf : Char → Char → Bool) (sys : Sys W) (sub : Subscription)
    (env region regionFolder : String) (resource : Resource) (w : W)
    (hs : shouldSkip uf resource env region = false)
    (hm : mkdirError (sys.mkdir (regionFolder ++ "/" ++ resource.Name) 0o755 w).1 = none) :
    resourceBody uf sys sub env region regionFolder resource w =
      (Event.mkdir (regionFolder ++ "/" ++ resource.Name) 0o755
          (sys.mkdir (regionFolder ++ "/" ++ resource.Name) 0o755 w).1 ::
        (runTerramateCommand sys (regionFolder ++ "/" ++ resource.Name)
          (",".intercalate [sub.Name, resource.Name, region, env])
          (sys.mkdir (regionFolder ++ "/" ++ resource.Name) 0o755 w).2).2.1 ++
        (match (runTerramateCommand sys (regionFolder ++ "/" ++ resource.Name)
            (",".intercalate [sub.Name, resource.Name, region, env])
            (sys.mkdir (regionFolder ++ "/" ++ resource.Name) 0o755 w).2).1 with
         | some m2 => [Event.print ("Error running terramate command in \x27" ++
              (regionFolder ++ "/" ++ resource.Name) ++ "\x27: " ++ m2 ++ "\n")]
         | none => []),
       (runTerramateCommand sys (regionFolder ++ "/" ++ resource.Name)
          (",".intercalate [sub.Name, resource.Name, region, env])
          (sys.mkdir (regionFolder ++ "/" ++ resource.Name) 0o755 w).2).2.2) := by
  simp only [resourceBody, hs, hm, Bool.false_eq_true, if_false]
  cases (runTerramateCommand sys (regionFolder ++ "/" ++ resource.Name)
      (",".intercalate [sub.Name, resource.Name, region, env])
      (sys.mkdir (regionFolder ++ "/" ++ resource.Name) 0o755 w).2).1 <;> simp

theorem regionBody_fail {W : Type} (uf : Char → Char → Bool) (sys : Sys W) (sub : Subscription)
    (env envFolder region : String) (w : W) (m : String)
    (hm : mkdirError (sys.mkdir (envFolder ++ "/" ++ region) 0o755 w).1 = some m) :
    regionBody uf sys sub env envFolder region w =
      ([Event.mkdir (envFolder ++ "/" ++ region) 0o755
          (sys.mkdir (envFolder ++ "/" ++ region) 0o755 w).1,
        Event.print ("Error creating region folder \x27" ++ (envFolder ++ "/" ++ region) ++
          "\x27: " ++ m ++ "\n")],
       (sys.mkdir (envFolder ++ "/" ++ region) 0o755 w).2) := by
  simp [regionBody, hm]

theorem regionBody_ok {W : Type} (uf : Char → Char → Bool) (sys : Sys W) (sub : Subscription)
    (env envFolder region : String) (w : W)
    (hm : mkdirError (sys.mkdir (envFolder ++ "/" ++ region) 0o755 w).1 = none) :
    regionBody uf sys sub env envFolder region w =
      (Event.mkdir (envFolder ++ "/" ++ region) 0o755
          (sys.mkdir (envFolder ++ "/" ++ region) 0o755 w).1 ::
        (forEach (resourceBody uf sys sub env region (envFolder ++ "/" ++ region)) sub.Resources
          (sys.mkdir (envFolder ++ "/" ++ region) 0o755 w).2).1,
       (forEach (resourceBody uf sys sub env region (envFolder ++ "/" ++ region)) sub.Resources
          (sys.mkdir (envFolder ++ "/" ++ region) 0o755 w).2).2) := by
  simp [regionBody, hm]

theorem envBody_fail {W : Type} (uf : Char → Char → Bool) (sys : Sys W) (config : Config)
    (sub : Subscription) (subFolder env : String) (w : W) (m : String)
    (hm : mkdirError (sys.mkdir (subFolder ++ "/" ++ env) 0o755 w).1 = some m) :
    envBody uf sys config sub subFolder env w =
      ([Event.mkdir (subFolder ++ "/" ++ env) 0o755
          (sys.mkdir (subFolder ++ "/" ++ env) 0o755 w).1,
        Event.print ("Error creating environment folder \x27" ++ (subFolder ++ "/" ++ env) ++
          "\x27: " ++ m ++ "\n")],
       (sys.mkdir (subFolder ++ "/" ++ env) 0o755 w).2) := by
  simp [envBody, hm]

theorem envBody_ok {W : Type} (uf : Char → Char → Bool) (sys : Sys W) (config : Config)
    (sub : Subscription) (subFolder env : String) (w : W)
    (hm : mkdirError (sys.mkdir (subFolder ++ "/" ++ env) 0o755 w).1 = none) :
    envBody uf sys config sub subFolder env w =
      (Event.mkdir (subFolder ++ "/" ++ env) 0o755
          (sys.mkdir (subFolder ++ "/" ++ env) 0o755 w).1 ::
        (forEach (regionBody uf sys sub env (subFolder ++ "/" ++ env)) config.Regions
          (sys.mkdir (subFolder ++ "/" ++ env) 0o755 w).2).1,
       (forEach (regionBody uf sys sub env (subFolder ++ "/" ++ env)) config.Regions
          (sys.mkdir (subFolder ++ "/" ++ env) 0o755 w).2).2) := by
  simp [envBody, hm]

theorem subBody_fail {W : Type} (uf : Char → Char → Bool) (sys : Sys W) (config : Config)
    (sub : Subscription) (w : W) (m : String)
    (hm : mkdirError (sys.mkdir sub.Name 0o755 w).1 = some m) :
    subBody uf sys config sub w =
      ([Event.mkdir sub.Name 0o755 (sys.mkdir sub.Name 0o755 w).1,
        Event.print ("Error creating subscription folder \x27" ++ sub.Name ++
          "\x27: " ++ m ++ "\n")],
       (sys.mkdir sub.Name 0o755 w).2) := by
  simp [subBody, hm]

theorem subBody_ok {W : Type} (uf : Char → Char → Bool) (sys : Sys W) (config : Config)
    (sub : Subscription) (w : W)
    (hm : mkdirError (sys.mkdir sub.Name 0o755 w).1 = none) :
    subBody uf sys config sub w =
      (Event.mkdir sub.Name 0o755 (sys.mkdir sub.Name 0o755 w).1 ::
        (forEach (envBody uf sys config sub sub.Name) config.Environments
          (sys.mkdir sub.Name 0o755 w).2).1,
       (forEach (envBody uf sys config sub sub.Name) config.Environments
          (sys.mkdir sub.Name 0o755 w).2).2) := by
  simp [subBody, hm]

/-! ## The calls of a run, given which creations fail -/

theorem followsF_split (F : String → Bool) (a b : List Event) :
    followsF F (a ++ b) = true → followsF F a = true ∧ followsF F b = true := by
  intro h
  simpa [followsF, List.all_append] using h

theorem tags_eq (sub : Subscription) (env region : String) (resource : Resource) :
    ",".intercalate [sub.Name, resource.Name, region, env] = tagsOf sub env region resource := rfl

theorem resourceBody_calls {W : Type} (uf : Char → Char → Bool) (sys : Sys W)
    (F : String → Bool) (sub : Subscription) (env region : String) (resource : Resource)
    (w : W) :
    followsF F (resourceBody uf sys sub env region (sub.Name ++ "/" ++ env ++ "/" ++ region)
      resource w).1 = true →
    calls (resourceBody uf sys sub env region (sub.Name ++ "/" ++ env ++ "/" ++ region)
      resource w).1 = guardedLeaf uf F sub env region resource := by
  unfold resourceBody guardedLeaf
  by_cases hs : shouldSkip uf resource env region = true
  · simp [hs, calls]
  · simp only [hs, if_false, Bool.false_eq_true]
    rw [tags_eq]
    cases hm : mkdirError (sys.mkdir (sub.Name ++ "/" ++ env ++ "/" ++ region ++ "/" ++
        resource.Name) 0o755 w).1 with
    | some m =>
      intro hF
      simp [followsF, agrees, hm] at hF
      simp [calls, issued, pathOf, hF]
    | none =>
      cases hr : (sys.run "terramate" ["create", "--tags", tagsOf sub env region resource,
        sub.Name ++ "/" ++ env ++ "/" ++ region ++ "/" ++ resource.Name]
        (sys.mkdir (sub.Name ++ "/" ++ env ++ "/" ++ region ++ "/" ++
        resource.Name) 0o755 w).2).1 with
      | some m2 =>
        intro hF
        simp [followsF, agrees, runTerramateCommand, hm, hr] at hF
        simp [calls, issued, pathOf, runTerramateCommand, hr, hF]
      | none =>
        intro hF
        simp [followsF, agrees, runTerramateCommand, hm, hr] at hF
        simp [calls, issued, pathOf, runTerramateCommand, hr, hF]

theorem followsF_cons_mkdir (F : String → Bool) (path : String) (perm : Nat)
    (res : Option OSError) (t : List Event) :
    followsF F (Event.mkdir path perm res :: t) = true →
      (mkdirError res).isSome = F path ∧ followsF F t = true := by
  intro h
  simpa [followsF, agrees] using h

theorem regionBody_calls {W : Type} (uf : Char → Char → Bool) (sys : Sys W)
    (F : String → Bool) (sub : Subscription) (env region : String) (w : W) :
    followsF F (regionBody uf sys sub env (sub.Name ++ "/" ++ env) region w).1 = true →
    calls (regionBody uf sys sub env (sub.Name ++ "/" ++ env) region w).1 =
      guardedRegion uf F sub env region := by
  unfold guardedRegion
  cases hm : mkdirError (sys.mkdir (sub.Name ++ "/" ++ env ++ "/" ++ region) 0o755 w).1 with
  | some m =>
    rw [regionBody_fail uf sys sub env _ region w m hm]
    intro hF
    obtain ⟨h1, -⟩ := followsF_cons_mkdir F _ _ _ _ hF
    rw [hm] at h1
    simp [calls, issued, ← h1]
  | none =>
    rw [regionBody_ok uf sys sub env _ region w hm]
    intro hF
    obtain ⟨h1, h2⟩ := followsF_cons_mkdir F _ _ _ _ hF
    rw [hm] at h1
    have h3 := forEach_filterMap issued (fun t => followsF F t = true) (followsF_split F)
      (resourceBody uf sys sub env region (sub.Name ++ "/" ++ env ++ "/" ++ region))
      (guardedLeaf uf F sub env region) sub.Resources
      (fun x _ w1 hx => resourceBody_calls uf sys F sub env region x w1 hx) _ h2
    simp only [calls] at h3 ⊢
    simp [issued, h3, ← h1]

theorem envBody_calls {W : Type} (uf : Char → Char → Bool) (sys : Sys W)
    (F : String → Bool) (config : Config) (sub : Subscription) (env : String) (w : W) :
    followsF F (envBody uf sys config sub sub.Name env w).1 = true →
    calls (envBody uf sys config sub sub.Name env w).1 = guardedEnv uf F config sub env := by
  unfold guardedEnv
  cases hm : mkdirError (sys.mkdir (sub.Name ++ "/" ++ env) 0o755 w).1 with
  | some m =>
    rw [envBody_fail uf sys config sub _ env w m hm]
    intro hF
    obtain ⟨h1, -⟩ := followsF_cons_mkdir F _ _ _ _ hF
    rw [hm] at h1
    simp [calls, issued, ← h1]
  | none =>
    rw [envBody_ok uf sys config sub _ env w hm]
    intro hF
    obtain ⟨h1, h2⟩ := followsF_cons_mkdir F _ _ _ _ hF
    rw [hm] at h1
    have h3 := forEach_filterMap issued (fun t => followsF F t = true) (followsF_split F)
      (regionBody uf sys sub env (sub.Name ++ "/" ++ env))
      (guardedRegion uf F sub env) config.Regions
      (fun x _ w1 hx => regionBody_calls uf sys F sub env x w1 hx) _ h2
    simp only [calls] at h3 ⊢
    simp [issued, h3, ← h1]

theorem subBody_calls {W : Type} (uf : Char → Char → Bool) (sys : Sys W)
    (F : String → Bool) (config : Config) (sub : Subscription) (w : W) :
    followsF F (subBody uf sys config sub w).1 = true →
    calls (subBody uf sys config sub w).1 = guardedSub uf F config sub := by
  unfold guardedSub
  cases hm : mkdirError (sys.mkdir sub.Name 0o755 w).1 with
  | some m =>
    rw [subBody_fail uf sys config sub w m hm]
    intro hF
    obtain ⟨h1, -⟩ := followsF_cons_mkdir F _ _ _ _ hF
    rw [hm] at h1
    simp [calls, issued, ← h1]
  | none =>
    rw [subBody_ok uf sys config sub w hm]
    intro hF
    obtain ⟨h1, h2⟩ := followsF_cons_mkdir F _ _ _ _ hF
    rw [hm] at h1
    have h3 := forEach_filterMap issued (fun t => followsF F t = true) (followsF_split F)
      (envBody uf sys config sub sub.Name)
      (guardedEnv uf F config sub) config.Environments
      (fun x _ w1 hx => envBody_calls uf sys F config sub x w1 hx) _ h2
    simp only [calls] at h3 ⊢
    simp [issued, h3, ← h1]

/-- The calls of a walk in which the creations that fail are those of the
paths `F` marks. -/
theorem walk_calls {W : Type} (uf : Char → Char → Bool) (sys : Sys W)
    (F : String → Bool) (config : Config) (w : W) :
    followsF F (walk uf sys config w).1 = true →
    calls (walk uf sys config w).1 = guardedCalls uf F config := by
  intro hF
  exact forEach_filterMap issued (fun t => followsF F t = true) (followsF_split F)
    (subBody uf sys config) (guardedSub uf F config) config.Subscriptions
    (fun x _ w1 hx => subBody_calls uf sys F config x w1 hx) w hF

/-! ## Reading the enumeration -/

theorem noMkdirFail_eq (t : List Event) : noMkdirFail t = followsF (fun _ => false) t := by
  unfold noMkdirFail followsF
  congr 1
  funext ev
  cases ev <;> simp [mkdirFailed, agrees]

theorem cmdCalls_eq (t : List Event) : cmdCalls t = (calls t).filterMap execOf := by
  unfold cmdCalls calls
  rw [List.filterMap_filterMap]
  congr 1
  funext ev
  cases ev <;> rfl

theorem flatMap_nil_fun {α β : Type} (l : List α) :
    l.flatMap (fun _ => ([] : List β)) = [] := by
  induction l with
  | nil => rfl
  | cons x xs ih => simp [List.flatMap_cons, ih]

theorem flatMap_ite_singleton {α β : Type} (p : α → Bool) (f : α → β) (l : List α) :
    l.flatMap (fun x => if p x = true then [f x] else []) = (l.filter p).map f := by
  induction l with
  | nil => rfl
  | cons x xs ih =>
    by_cases h : p x = true
    · simp [List.flatMap_cons, ih, h]
    · simp [List.flatMap_cons, ih, h]

theorem guardedLeaf_exec (uf : Char → Char → Bool) (F : String → Bool) (sub : Subscription)
    (env region : String) (resource : Resource) :
    (guardedLeaf uf F sub env region resource).filterMap execOf =
      if (!shouldSkip uf resource env region && !F (pathOf sub env region resource)) = true
      then [invocation sub env region resource] else [] := by
  unfold guardedLeaf
  by_cases hs : shouldSkip uf resource env region = true
  · simp [hs]
  · by_cases hf : F (pathOf sub env region resource) = true
    · simp [hs, hf, execOf]
    · simp [hs, hf, execOf, invocation]

/-- The commands among the calls of the guarded enumeration: the combinations
that are not skipped and whose four directory creations do not fail. -/
theorem guardedCalls_exec (uf : Char → Char → Bool) (F : String → Bool) (config : Config) :
    (guardedCalls uf F config).filterMap execOf =
      ((combos config).filter fun x =>
          !shouldSkip uf x.2.2.2 x.2.1 x.2.2.1 && createsOk F x.1 x.2.1 x.2.2.1 x.2.2.2).map
        fun x => invocation x.1 x.2.1 x.2.2.1 x.2.2.2 := by
  simp only [guardedCalls, combos, List.filterMap_flatMap, List.filter_flatMap, List.map_flatMap]
  congr 1
  funext sub
  by_cases h1 : F sub.Name = true
  · simp [guardedSub, execOf, h1, createsOk, flatMap_nil_fun]
  · simp only [guardedSub, List.filterMap_cons, execOf, h1, if_false, Bool.false_eq_true,
      List.filterMap_flatMap]
    congr 1
    funext env
    by_cases h2 : F (sub.Name ++ "/" ++ env) = true
    · simp [guardedEnv, execOf, h2, createsOk, flatMap_nil_fun]
    · simp only [guardedEnv, List.filterMap_cons, execOf, h2, if_false, Bool.false_eq_true,
        List.filterMap_flatMap]
      congr 1
      funext region
      by_cases h3 : F (sub.Name ++ "/" ++ env ++ "/" ++ region) = true
      · simp [guardedRegion, execOf, h3, createsOk]
      · simp only [guardedRegion, List.filterMap_cons, execOf, h3, if_false, Bool.false_eq_true,
          List.filterMap_flatMap, guardedLeaf_exec]
        rw [flatMap_ite_singleton, List.filter_map, List.map_map]
        simp [createsOk, h1, h2, h3, Function.comp_def]

theorem guardedLeaf_false (uf : Char → Char → Bool) (sub : Subscription) (env region : String) :
    guardedLeaf uf (fun _ => false) sub env region = leafCalls uf sub env region := by
  funext resource
  simp [guardedLeaf, leafCalls]

theorem guardedRegion_false (uf : Char → Char → Bool) (sub : Subscription) (env : String) :
    guardedRegion uf (fun _ => false) sub env = fun region =>
      Call.mkdir (sub.Name ++ "/" ++ env ++ "/" ++ region) 0o755 ::
        resCalls uf sub env region sub.Resources := by
  funext region
  simp [guardedRegion, resCalls, guardedLeaf_false]

theorem guardedEnv_false (uf : Char → Char → Bool) (config : Config) (sub : Subscription) :
    guardedEnv uf (fun _ => false) config sub = fun env =>
      Call.mkdir (sub.Name ++ "/" ++ env) 0o755 :: regionCalls uf sub env config.Regions := by
  funext env
  simp [guardedEnv, regionCalls, guardedRegion_false]

theorem guardedSub_false (uf : Char → Char → Bool) (config : Config) :
    guardedSub uf (fun _ => false) config = fun sub =>
      Call.mkdir sub.Name 0o755 :: envCalls uf config sub config.Environments := by
  funext sub
  simp [guardedSub, envCalls, guardedEnv_false]

theorem guardedCalls_false (uf : Char → Char → Bool) (config : Config) :
    guardedCalls uf (fun _ => false) config = subCalls uf config config.Subscriptions := by
  simp [guardedCalls, subCalls, guardedSub_false]

/-- The calls of a walk in which no directory creation fails. -/
theorem walk_calls_ok {W : Type} (uf : Char → Char → Bool) (sys : Sys W) (config : Config)
    (w : W) (h : noMkdirFail (walk uf sys config w).1 = true) :
    calls (walk uf sys config w).1 = subCalls uf config config.Subscriptions := by
  rw [noMkdirFail_eq] at h
  rw [walk_calls uf sys (fun _ => false) config w h, guardedCalls_false]

/-! ## Every command comes from a combination that is not skipped -/

theorem resourceBody_valid {W : Type} (uf : Char → Char → Bool) (sys : Sys W) (config : Config)
    (sub : Subscription) (env region : String) (resource : Resource)
    (hsub : sub ∈ config.Subscriptions) (henv : env ∈ config.Environments)
    (hreg : region ∈ config.Regions) (hres : resource ∈ sub.Resources) (w : W) :
    ∀ ev ∈ (resourceBody uf sys sub env region (sub.Name ++ "/" ++ env ++ "/" ++ region)
      resource w).1, ValidExec uf config ev := by
  cases hs : shouldSkip uf resource env region with
  | true => simp [resourceBody_skip uf sys sub env region _ resource w hs]
  | false =>
    cases hm : mkdirError (sys.mkdir (sub.Name ++ "/" ++ env ++ "/" ++ region ++ "/" ++
        resource.Name) 0o755 w).1 with
    | some m =>
      rw [resourceBody_fail uf sys sub env region _ resource w m hs hm]
      simp [ValidExec]
    | none =>
      rw [resourceBody_ok uf sys sub env region _ resource w hs hm]
      have hv : ValidExec uf config (Event.exec "terramate"
          ["create", "--tags", ",".intercalate [sub.Name, resource.Name, region, env],
            sub.Name ++ "/" ++ env ++ "/" ++ region ++ "/" ++ resource.Name]
          (sys.run "terramate" ["create", "--tags",
            ",".intercalate [sub.Name, resource.Name, region, env],
            sub.Name ++ "/" ++ env ++ "/" ++ region ++ "/" ++ resource.Name]
            (sys.mkdir (sub.Name ++ "/" ++ env ++ "/" ++ region ++ "/" ++
              resource.Name) 0o755 w).2).1) :=
        ⟨rfl, sub, hsub, resource, hres, env, henv, region, hreg, hs, rfl⟩
      cases hr : (sys.run "terramate" ["create", "--tags",
        ",".intercalate [sub.Name, resource.Name, region, env],
        sub.Name ++ "/" ++ env ++ "/" ++ region ++ "/" ++ resource.Name]
        (sys.mkdir (sub.Name ++ "/" ++ env ++ "/" ++ region ++ "/" ++
          resource.Name) 0o755 w).2).1 <;>
      · rw [hr] at hv
        simp only [runTerramateCommand, hr, List.forall_mem_cons, List.forall_mem_append]
        and_intros
        all_goals first | exact hv | exact hv.1 | exact hv.2 | exact True.intro | (intro x hx; cases hx)

theorem regionBody_valid {W : Type} (uf : Char → Char → Bool) (sys : Sys W) (config : Config)
    (sub : Subscription) (env region : String)
    (hsub : sub ∈ config.Subscriptions) (henv : env ∈ config.Environments)
    (hreg : region ∈ config.Regions) (w : W) :
    ∀ ev ∈ (regionBody uf sys sub env (sub.Name ++ "/" ++ env) region w).1,
      ValidExec uf config ev := by
  cases hm : mkdirError (sys.mkdir (sub.Name ++ "/" ++ env ++ "/" ++ region) 0o755 w).1 with
  | some m =>
    rw [regionBody_fail uf sys sub env _ region w m hm]
    simp [ValidExec]
  | none =>
    rw [regionBody_ok uf sys sub env _ region w hm]
    intro ev hev
    rcases List.mem_cons.1 hev with rfl | hev
    · exact True.intro
    · exact forEach_forall (ValidExec uf config) _ _
        (fun x hx w1 => resourceBody_valid uf sys config sub env region x hsub henv hreg hx w1)
        _ ev hev

theorem envBody_valid {W : Type} (uf : Char → Char → Bool) (sys : Sys W) (config : Config)
    (sub : Subscription) (env : String)
    (hsub : sub ∈ config.Subscriptions) (henv : env ∈ config.Environments) (w : W) :
    ∀ ev ∈ (envBody uf sys config sub sub.Name env w).1, ValidExec uf config ev := by
  cases hm : mkdirError (sys.mkdir (sub.Name ++ "/" ++ env) 0o755 w).1 with
  | some m =>
    rw [envBody_fail uf sys config sub _ env w m hm]
    simp [ValidExec]
  | none =>
    rw [envBody_ok uf sys config sub _ env w hm]
    intro ev hev
    rcases List.mem_cons.1 hev with rfl | hev
    · exact True.intro
    · exact forEach_forall (ValidExec uf config) _ _
        (fun x hx w1 => regionBody_valid uf sys config sub env x hsub henv hx w1) _ ev hev

theorem subBody_valid {W : Type} (uf : Char → Char → Bool) (sys : Sys W) (config : Config)
    (sub : Subscription) (hsub : sub ∈ config.Subscriptions) (w : W) :
    ∀ ev ∈ (subBody uf sys config sub w).1, ValidExec uf config ev := by
  cases hm : mkdirError (sys.mkdir sub.Name 0o755 w).1 with
  | some m =>
    rw [subBody_fail uf sys config sub w m hm]
    simp [ValidExec]
  | none =>
    rw [subBody_ok uf sys config sub w hm]
    intro ev hev
    rcases List.mem_cons.1 hev with rfl | hev
    · exact True.intro
    · exact forEach_forall (ValidExec uf config) _ _
        (fun x hx w1 => envBody_valid uf sys config sub x hsub hx w1) _ ev hev

theorem walk_valid {W : Type} (uf : Char → Char → Bool) (sys : Sys W) (config : Config) (w : W) :
    ∀ ev ∈ (walk uf sys config w).1, ValidExec uf config ev :=
  forEach_forall (ValidExec uf config) _ _
    (fun x hx w1 => subBody_valid uf sys config x hx w1) w

/-! ## main and loadConfig -/

theorem main_ok {W : Type} (uf : Char → Char → Bool) (sys : Sys W) (w : W) (config : Config)
    (h : (loadConfig sys "config.yml" w).1 = Except.ok config) :
    main uf sys w =
      (Event.readFile "config.yml" :: (walk uf sys config (sys.readFile "config.yml" w).2).1,
       (walk uf sys config (sys.readFile "config.yml" w).2).2) := by
  unfold main
  unfold loadConfig at h ⊢
  cases hr : sys.readFile "config.yml" w with
  | mk r w1 =>
    rw [hr] at h
    cases r with
    | error e => simp at h
    | ok data =>
      simp only at h ⊢
      cases hu : sys.unmarshal data with
      | error e => rw [hu] at h; simp at h
      | ok c =>
        rw [hu] at h
        simp only [Except.ok.injEq] at h
        subst h
        simp

theorem main_error {W : Type} (uf : Char → Char → Bool) (sys : Sys W) (w : W) (e : String)
    (h : (loadConfig sys "config.yml" w).1 = Except.error e) :
    main uf sys w =
      ([Event.readFile "config.yml", Event.print ("Error loading config: " ++ e ++ "\n")],
       (sys.readFile "config.yml" w).2) := by
  unfold main
  unfold loadConfig at h ⊢
  cases hr : sys.readFile "config.yml" w with
  | mk r w1 =>
    rw [hr] at h
    cases r with
    | error e1 =>
      simp only [Except.error.injEq] at h
      subst h
      simp
    | ok data =>
      simp only at h ⊢
      cases hu : sys.unmarshal data with
      | error e1 =>
        rw [hu] at h
        simp only [Except.error.injEq] at h
        subst h
        simp
      | ok c => rw [hu] at h; simp at h

/-! ## Two systems that differ only in what commands return -/

theorem forEach_rel {α β W : Type} (g : Event → Option β) (body1 body2 : α → W → List Event × W)
    (xs : List α)
    (h : ∀ x ∈ xs, ∀ w, (body1 x w).2 = (body2 x w).2 ∧
      (body1 x w).1.filterMap g = (body2 x w).1.filterMap g) :
    ∀ w, (forEach body1 xs w).2 = (forEach body2 xs w).2 ∧
      (forEach body1 xs w).1.filterMap g = (forEach body2 xs w).1.filterMap g := by
  induction xs with
  | nil => intro w; simp [forEach_nil]
  | cons x xs ih =>
    intro w
    obtain ⟨h1, h2⟩ := h x (List.mem_cons_self x xs) w
    obtain ⟨h3, h4⟩ := ih (fun y hy => h y (List.mem_cons_of_mem x hy)) (body2 x w).2
    simp only [forEach_cons, List.filterMap_append, h1, h2, h3, h4, and_self]

theorem resourceBody_rel {W : Type} (uf : Char → Char → Bool) (sys1 sys2 : Sys W)
    (hmk : sys1.mkdir = sys2.mkdir)
    (hrun : ∀ n a w, (sys1.run n a w).2 = (sys2.run n a w).2)
    (sub : Subscription) (env region regionFolder : String) (resource : Resource) (w : W) :
    (resourceBody uf sys1 sub env region regionFolder resource w).2 =
      (resourceBody uf sys2 sub env region regionFolder resource w).2 ∧
    (resourceBody uf sys1 sub env region regionFolder resource w).1.filterMap observed =
      (resourceBody uf sys2 sub env region regionFolder resource w).1.filterMap observed := by
  cases hs : shouldSkip uf resource env region with
  | true => simp [resourceBody_skip _ _ sub env region regionFolder resource w hs]
  | false =>
    cases hm : mkdirError (sys1.mkdir (regionFolder ++ "/" ++ resource.Name) 0o755 w).1 with
    | some m =>
      rw [resourceBody_fail uf sys1 sub env region regionFolder resource w m hs hm,
        resourceBody_fail uf sys2 sub env region regionFolder resource w m hs (hmk ▸ hm), hmk]
      simp
    | none =>
      rw [resourceBody_ok uf sys1 sub env region regionFolder resource w hs hm,
        resourceBody_ok uf sys2 sub env region regionFolder resource w hs (hmk ▸ hm), hmk]
      refine ⟨by simp [runTerramateCommand, hrun], ?_⟩
      simp only [runTerramateCommand, List.filterMap_cons, List.filterMap_append, observed,
        List.filterMap_nil]
      cases (sys1.run "terramate" ["create", "--tags",
          ",".intercalate [sub.Name, resource.Name, region, env],
          regionFolder ++ "/" ++ resource.Name]
          (sys2.mkdir (regionFolder ++ "/" ++ resource.Name) 0o755 w).2).1 <;>
      cases (sys2.run "terramate" ["create", "--tags",
          ",".intercalate [sub.Name, resource.Name, region, env],
          regionFolder ++ "/" ++ resource.Name]
          (sys2.mkdir (regionFolder ++ "/" ++ resource.Name) 0o755 w).2).1 <;>
      simp [observed]

theorem regionBody_rel {W : Type} (uf : Char → Char → Bool) (sys1 sys2 : Sys W)
    (hmk : sys1.mkdir = sys2.mkdir)
    (hrun : ∀ n a w, (sys1.run n a w).2 = (sys2.run n a w).2)
    (sub : Subscription) (env envFolder region : String) (w : W) :
    (regionBody uf sys1 sub env envFolder region w).2 =
      (regionBody uf sys2 sub env envFolder region w).2 ∧
    (regionBody uf sys1 sub env envFolder region w).1.filterMap observed =
      (regionBody uf sys2 sub env envFolder region w).1.filterMap observed := by
  cases hm : mkdirError (sys1.mkdir (envFolder ++ "/" ++ region) 0o755 w).1 with
  | some m =>
    rw [regionBody_fail uf sys1 sub env envFolder region w m hm,
      regionBody_fail uf sys2 sub env envFolder region w m (hmk ▸ hm), hmk]
    simp
  | none =>
    rw [regionBody_ok uf sys1 sub env envFolder region w hm,
      regionBody_ok uf sys2 sub env envFolder region w (hmk ▸ hm), hmk]
    obtain ⟨h1, h2⟩ := forEach_rel observed
      (resourceBody uf sys1 sub env region (envFolder ++ "/" ++ region))
      (resourceBody uf sys2 sub env region (envFolder ++ "/" ++ region)) sub.Resources
      (fun x _ w1 => resourceBody_rel uf sys1 sys2 hmk hrun sub env region _ x w1)
      (sys2.mkdir (envFolder ++ "/" ++ region) 0o755 w).2
    simp only [List.filterMap_cons, observed, h1, h2, and_self]

theorem envBody_rel {W : Type} (uf : Char → Char → Bool) (sys1 sys2 : Sys W)
    (hmk : sys1.mkdir = sys2.mkdir)
    (hrun : ∀ n a w, (sys1.run n a w).2 = (sys2.run n a w).2)
    (config : Config) (sub : Subscription) (subFolder env : String) (w : W) :
    (envBody uf sys1 config sub subFolder env w).2 =
      (envBody uf sys2 config sub subFolder env w).2 ∧
    (envBody uf sys1 config sub subFolder env w).1.filterMap observed =
      (envBody uf sys2 config sub subFolder env w).1.filterMap observed := by
  cases hm : mkdirError (sys1.mkdir (subFolder ++ "/" ++ env) 0o755 w).1 with
  | some m =>
    rw [envBody_fail uf sys1 config sub subFolder env w m hm,
      envBody_fail uf sys2 config sub subFolder env w m (hmk ▸ hm), hmk]
    simp
  | none =>
    rw [envBody_ok uf sys1 config sub subFolder env w hm,
      envBody_ok uf sys2 config sub subFolder env w (hmk ▸ hm), hmk]
    obtain ⟨h1, h2⟩ := forEach_rel observed
      (regionBody uf sys1 sub env (subFolder ++ "/" ++ env))
      (regionBody uf sys2 sub env (subFolder ++ "/" ++ env)) config.Regions
      (fun x _ w1 => regionBody_rel uf sys1 sys2 hmk hrun sub env _ x w1)
      (sys2.mkdir (subFolder ++ "/" ++ env) 0o755 w).2
    simp only [List.filterMap_cons, observed, h1, h2, and_self]

theorem subBody_rel {W : Type} (uf : Char → Char → Bool) (sys1 sys2 : Sys W)
    (hmk : sys1.mkdir = sys2.mkdir)
    (hrun : ∀ n a w, (sys1.run n a w).2 = (sys2.run n a w).2)
    (config : Config) (sub : Subscription) (w : W) :
    (subBody uf sys1 config sub w).2 = (subBody uf sys2 config sub w).2 ∧
    (subBody uf sys1 config sub w).1.filterMap observed =
      (subBody uf sys2 config sub w).1.filterMap observed := by
  cases hm : mkdirError (sys1.mkdir sub.Name 0o755 w).1 with
  | some m =>
    rw [subBody_fail uf sys1 config sub w m hm,
      subBody_fail uf sys2 config sub w m (hmk ▸ hm), hmk]
    simp
  | none =>
    rw [subBody_ok uf sys1 config sub w hm,
      subBody_ok uf sys2 config sub w (hmk ▸ hm), hmk]
    obtain ⟨h1, h2⟩ := forEach_rel observed
      (envBody uf sys1 config sub sub.Name)
      (envBody uf sys2 config sub sub.Name) config.Environments
      (fun x _ w1 => envBody_rel uf sys1 sys2 hmk hrun config sub _ x w1)
      (sys2.mkdir sub.Name 0o755 w).2
    simp only [List.filterMap_cons, observed, h1, h2, and_self]

theorem walk_rel {W : Type} (uf : Char → Char → Bool) (sys1 sys2 : Sys W)
    (hmk : sys1.mkdir = sys2.mkdir)
    (hrun : ∀ n a w, (sys1.run n a w).2 = (sys2.run n a w).2)
    (config : Config) (w : W) :
    (walk uf sys1 config w).2 = (walk uf sys2 config w).2 ∧
    (walk uf sys1 config w).1.filterMap observed =
      (walk uf sys2 config w).1.filterMap observed :=
  forEach_rel observed (subBody uf sys1 config) (subBody uf sys2 config) config.Subscriptions
    (fun x _ w1 => subBody_rel uf sys1 sys2 hmk hrun config x w1) w

theorem calls_observed (t : List Event) : calls t = (t.filterMap observed).filterMap issued := by
  unfold calls
  rw [List.filterMap_filterMap]
  congr 1
  funext ev
  cases ev <;> rfl

theorem mkdirResults_observed (t : List Event) :
    mkdirResults t = (t.filterMap observed).filterMap mkdirResultOf := by
  unfold mkdirResults
  rw [List.filterMap_filterMap]
  congr 1
  funext ev
  cases ev <;> rfl

theorem cmdCalls_observed (t : List Event) :
    cmdCalls t = (t.filterMap observed).filterMap cmdOf := by
  unfold cmdCalls
  rw [List.filterMap_filterMap]
  congr 1
  funext ev
  cases ev <;> rfl

/-! ## Runs over the filesystem model -/

theorem noMkdirFail_split (a b : List Event) :
    noMkdirFail (a ++ b) = true → noMkdirFail a = true ∧ noMkdirFail b = true := by
  intro h
  simpa [noMkdirFail, List.all_append] using h

theorem noMkdirFail_cons_mkdir (path : String) (perm : Nat) (res : Option OSError)
    (t : List Event) :
    noMkdirFail (Event.mkdir path perm res :: t) = true ↔
      mkdirError res = none ∧ noMkdirFail t = true := by
  cases h : mkdirError res <;> simp [noMkdirFail, mkdirFailed, h]

theorem fsSys_mkdir_mono (denied : List String → String → Option String)
    (cmd : String → List String → List String → Option String) (path : String) (perm : Nat)
    (fs : List String) : ∀ p ∈ fs, p ∈ ((fsSys denied cmd).mkdir path perm fs).2 := by
  intro p hp
  simp only [fsSys]
  split
  · exact hp
  · split
    · exact hp
    · exact List.mem_cons_of_mem _ hp

theorem fsSys_mkdir_ok (denied : List String → String → Option String)
    (cmd : String → List String → List String → Option String) (path : String) (perm : Nat)
    (fs : List String)
    (h : mkdirError ((fsSys denied cmd).mkdir path perm fs).1 = none) :
    path ∈ ((fsSys denied cmd).mkdir path perm fs).2 := by
  simp only [fsSys] at h ⊢
  split
  · assumption
  · split
    · rename_i m hd
      simp [hd, mkdirError, *] at h
    · exact List.mem_cons_self _ _

theorem fsSys_mkdir_exists (denied : List String → String → Option String)
    (cmd : String → List String → List String → Option String) (path : String) (perm : Nat)
    (fs : List String) (h : path ∈ fs) :
    mkdirError ((fsSys denied cmd).mkdir path perm fs).1 = none ∧
      ((fsSys denied cmd).mkdir path perm fs).2 = fs := by
  simp [fsSys, h, mkdirError]

theorem fsSys_run (denied : List String → String → Option String)
    (cmd : String → List String → List String → Option String) (name : String)
    (args : List String) (fs : List String) :
    ((fsSys denied cmd).run name args fs).2 = fs := rfl

theorem forEach_grown {α : Type} (body : α → List String → List Event × List String)
    (xs : List α) (h : ∀ x ∈ xs, ∀ fs, Grown fs (body x fs)) :
    ∀ fs, Grown fs (forEach body xs fs) := by
  induction xs with
  | nil => intro fs _; simp [forEach_nil, mkdirCalls]
  | cons x xs ih =>
    intro fs hok
    rw [forEach_cons] at hok ⊢
    obtain ⟨h1, h2⟩ := noMkdirFail_split _ _ hok
    obtain ⟨a1, a2⟩ := h x (List.mem_cons_self x xs) fs h1
    obtain ⟨b1, b2⟩ := ih (fun y hy => h y (List.mem_cons_of_mem x hy)) _ h2
    refine ⟨fun p hp => b1 p (a1 p hp), ?_⟩
    intro p hp
    simp only [mkdirCalls, List.filterMap_append, List.mem_append] at hp
    rcases hp with hp | hp
    · exact b1 p (a2 p hp)
    · exact b2 p hp

theorem resourceBody_grown (uf : Char → Char → Bool) (sys : Sys (List String))
    (hmono : ∀ p m fs, ∀ q ∈ fs, q ∈ (sys.mkdir p m fs).2)
    (hnew : ∀ p m fs, mkdirError (sys.mkdir p m fs).1 = none → p ∈ (sys.mkdir p m fs).2)
    (hrun : ∀ n a fs, (sys.run n a fs).2 = fs)
    (sub : Subscription) (env region regionFolder : String) (resource : Resource)
    (fs : List String) :
    Grown fs (resourceBody uf sys sub env region regionFolder resource fs) := by
  cases hs : shouldSkip uf resource env region with
  | true =>
    rw [resourceBody_skip uf sys sub env region regionFolder resource fs hs]
    intro _
    simp [mkdirCalls]
  | false =>
    cases hm : mkdirError (sys.mkdir (regionFolder ++ "/" ++ resource.Name) 0o755 fs).1 with
    | some m =>
      rw [resourceBody_fail uf sys sub env region regionFolder resource fs m hs hm]
      intro hok
      rw [noMkdirFail_cons_mkdir, hm] at hok
      simp at hok
    | none =>
      rw [resourceBody_ok uf sys sub env region regionFolder resource fs hs hm]
      intro _
      have hw : (runTerramateCommand sys (regionFolder ++ "/" ++ resource.Name)
          (",".intercalate [sub.Name, resource.Name, region, env])
          (sys.mkdir (regionFolder ++ "/" ++ resource.Name) 0o755 fs).2).2.2 =
          (sys.mkdir (regionFolder ++ "/" ++ resource.Name) 0o755 fs).2 := by
        simp [runTerramateCommand, hrun]
      simp only [hw]
      refine ⟨hmono _ _ fs, ?_⟩
      intro p hp
      have hp2 : p = regionFolder ++ "/" ++ resource.Name := by
        simp only [mkdirCalls, runTerramateCommand, List.filterMap_cons, List.filterMap_append,
          mkdirOf] at hp
        cases hr : (sys.run "terramate" ["create", "--tags",
          ",".intercalate [sub.Name, resource.Name, region, env],
          regionFolder ++ "/" ++ resource.Name]
          (sys.mkdir (regionFolder ++ "/" ++ resource.Name) 0o755 fs).2).1 <;>
        · rw [hr] at hp
          simpa [mkdirOf] using hp
      rw [hp2]
      exact hnew _ _ fs hm

theorem regionBody_grown (uf : Char → Char → Bool) (sys : Sys (List String))
    (hmono : ∀ p m fs, ∀ q ∈ fs, q ∈ (sys.mkdir p m fs).2)
    (hnew : ∀ p m fs, mkdirError (sys.mkdir p m fs).1 = none → p ∈ (sys.mkdir p m fs).2)
    (hrun : ∀ n a fs, (sys.run n a fs).2 = fs)
    (sub : Subscription) (env envFolder region : String) (fs : List String) :
    Grown fs (regionBody uf sys sub env envFolder region fs) := by
  cases hm : mkdirError (sys.mkdir (envFolder ++ "/" ++ region) 0o755 fs).1 with
  | some m =>
    rw [regionBody_fail uf sys sub env envFolder region fs m hm]
    intro hok
    rw [noMkdirFail_cons_mkdir, hm] at hok
    simp at hok
  | none =>
    rw [regionBody_ok uf sys sub env envFolder region fs hm]
    intro hok
    rw [noMkdirFail_cons_mkdir] at hok
    obtain ⟨b1, b2⟩ := forEach_grown _ sub.Resources
      (fun x _ fs1 => resourceBody_grown uf sys hmono hnew hrun sub env region _ x fs1)
      _ hok.2
    refine ⟨fun p hp => b1 p (hmono _ _ fs p hp), ?_⟩
    intro p hp
    simp only [mkdirCalls, List.filterMap_cons, mkdirOf, List.mem_cons] at hp
    rcases hp with rfl | hp
    · exact b1 _ (hnew _ _ fs hm)
    · exact b2 p hp

theorem envBody_grown (uf : Char → Char → Bool) (sys : Sys (List String))
    (hmono : ∀ p m fs, ∀ q ∈ fs, q ∈ (sys.mkdir p m fs).2)
    (hnew : ∀ p m fs, mkdirError (sys.mkdir p m fs).1 = none → p ∈ (sys.mkdir p m fs).2)
    (hrun : ∀ n a fs, (sys.run n a fs).2 = fs)
    (config : Config) (sub : Subscription) (subFolder env : String) (fs : List String) :
    Grown fs (envBody uf sys config sub subFolder env fs) := by
  cases hm : mkdirError (sys.mkdir (subFolder ++ "/" ++ env) 0o755 fs).1 with
  | some m =>
    rw [envBody_fail uf sys config sub subFolder env fs m hm]
    intro hok
    rw [noMkdirFail_cons_mkdir, hm] at hok
    simp at hok
  | none =>
    rw [envBody_ok uf sys config sub subFolder env fs hm]
    intro hok
    rw [noMkdirFail_cons_mkdir] at hok
    obtain ⟨b1, b2⟩ := forEach_grown _ config.Regions
      (fun x _ fs1 => regionBody_grown uf sys hmono hnew hrun sub env _ x fs1)
      _ hok.2
    refine ⟨fun p hp => b1 p (hmono _ _ fs p hp), ?_⟩
    intro p hp
    simp only [mkdirCalls, List.filterMap_cons, mkdirOf, List.mem_cons] at hp
    rcases hp with rfl | hp
    · exact b1 _ (hnew _ _ fs hm)
    · exact b2 p hp

theorem subBody_grown (uf : Char → Char → Bool) (sys : Sys (List String))
    (hmono : ∀ p m fs, ∀ q ∈ fs, q ∈ (sys.mkdir p m fs).2)
    (hnew : ∀ p m fs, mkdirError (sys.mkdir p m fs).1 = none → p ∈ (sys.mkdir p m fs).2)
    (hrun : ∀ n a fs, (sys.run n a fs).2 = fs)
    (config : Config) (sub : Subscription) (fs : List String) :
    Grown fs (subBody uf sys config sub fs) := by
  cases hm : mkdirError (sys.mkdir sub.Name 0o755 fs).1 with
  | some m =>
    rw [subBody_fail uf sys config sub fs m hm]
    intro hok
    rw [noMkdirFail_cons_mkdir, hm] at hok
    simp at hok
  | none =>
    rw [subBody_ok uf sys config sub fs hm]
    intro hok
    rw [noMkdirFail_cons_mkdir] at hok
    obtain ⟨b1, b2⟩ := forEach_grown _ config.Environments
      (fun x _ fs1 => envBody_grown uf sys hmono hnew hrun config sub _ x fs1)
      _ hok.2
    refine ⟨fun p hp => b1 p (hmono _ _ fs p hp), ?_⟩
    intro p hp
    simp only [mkdirCalls, List.filterMap_cons, mkdirOf, List.mem_cons] at hp
    rcases hp with rfl | hp
    · exact b1 _ (hnew _ _ fs hm)
    · exact b2 p hp

theorem walk_grown (uf : Char → Char → Bool) (sys : Sys (List String))
    (hmono : ∀ p m fs, ∀ q ∈ fs, q ∈ (sys.mkdir p m fs).2)
    (hnew : ∀ p m fs, mkdirError (sys.mkdir p m fs).1 = none → p ∈ (sys.mkdir p m fs).2)
    (hrun : ∀ n a fs, (sys.run n a fs).2 = fs)
    (config : Config) (fs : List String) : Grown fs (walk uf sys config fs) :=
  forEach_grown _ config.Subscriptions
    (fun x _ fs1 => subBody_grown uf sys hmono hnew hrun config x fs1) fs

theorem forEach_stable {α W : Type} (body : α → W → List Event × W) (xs : List α) (w : W)
    (h : ∀ x ∈ xs, (body x w).2 = w ∧ noMkdirFail (body x w).1 = true) :
    (forEach body xs w).2 = w ∧ noMkdirFail (forEach body xs w).1 = true := by
  induction xs with
  | nil => simp [forEach_nil, noMkdirFail]
  | cons x xs ih =>
    obtain ⟨h1, h2⟩ := h x (List.mem_cons_self x xs)
    obtain ⟨h3, h4⟩ := ih (fun y hy => h y (List.mem_cons_of_mem x hy))
    rw [forEach_cons, h1]
    refine ⟨h3, ?_⟩
    simp only [noMkdirFail, List.all_append, Bool.and_eq_true] at h2 h4 ⊢
    exact ⟨h2, h4⟩

theorem resourceBody_stable (uf : Char → Char → Bool) (sys : Sys (List String))
    (fs : List String)
    (hex : ∀ p m, p ∈ fs → mkdirError (sys.mkdir p m fs).1 = none ∧ (sys.mkdir p m fs).2 = fs)
    (hrun : ∀ n a, (sys.run n a fs).2 = fs)
    (sub : Subscription) (env region regionFolder : String) (resource : Resource)
    (h4 : shouldSkip uf resource env region = false →
      regionFolder ++ "/" ++ resource.Name ∈ fs) :
    (resourceBody uf sys sub env region regionFolder resource fs).2 = fs ∧
      noMkdirFail (resourceBody uf sys sub env region regionFolder resource fs).1 = true := by
  cases hs : shouldSkip uf resource env region with
  | true =>
    rw [resourceBody_skip uf sys sub env region regionFolder resource fs hs]
    exact ⟨rfl, rfl⟩
  | false =>
    obtain ⟨e1, e2⟩ := hex _ 0o755 (h4 hs)
    rw [resourceBody_ok uf sys sub env region regionFolder resource fs hs e1, e2]
    refine ⟨by simp [runTerramateCommand, hrun], ?_⟩
    simp only [List.cons_append]
    rw [noMkdirFail_cons_mkdir]
    refine ⟨e1, ?_⟩
    cases hr : (sys.run "terramate" ["create", "--tags",
      ",".intercalate [sub.Name, resource.Name, region, env],
      regionFolder ++ "/" ++ resource.Name] fs).1 <;>
    simp [runTerramateCommand, noMkdirFail, mkdirFailed, hr]

theorem regionBody_stable (uf : Char → Char → Bool) (sys : Sys (List String))
    (fs : List String)
    (hex : ∀ p m, p ∈ fs → mkdirError (sys.mkdir p m fs).1 = none ∧ (sys.mkdir p m fs).2 = fs)
    (hrun : ∀ n a, (sys.run n a fs).2 = fs)
    (sub : Subscription) (env envFolder region : String)
    (h3 : envFolder ++ "/" ++ region ∈ fs)
    (h4 : ∀ resource ∈ sub.Resources, shouldSkip uf resource env region = false →
      envFolder ++ "/" ++ region ++ "/" ++ resource.Name ∈ fs) :
    (regionBody uf sys sub env envFolder region fs).2 = fs ∧
      noMkdirFail (regionBody uf sys sub env envFolder region fs).1 = true := by
  obtain ⟨e1, e2⟩ := hex _ 0o755 h3
  rw [regionBody_ok uf sys sub env envFolder region fs e1, e2]
  obtain ⟨a1, a2⟩ := forEach_stable
    (resourceBody uf sys sub env region (envFolder ++ "/" ++ region)) sub.Resources fs
    (fun x hx => resourceBody_stable uf sys fs hex hrun sub env region _ x (h4 x hx))
  exact ⟨a1, (noMkdirFail_cons_mkdir _ _ _ _).2 ⟨e1, a2⟩⟩

theorem envBody_stable (uf : Char → Char → Bool) (sys : Sys (List String))
    (fs : List String)
    (hex : ∀ p m, p ∈ fs → mkdirError (sys.mkdir p m fs).1 = none ∧ (sys.mkdir p m fs).2 = fs)
    (hrun : ∀ n a, (sys.run n a fs).2 = fs)
    (config : Config) (sub : Subscription) (subFolder env : String)
    (h2 : subFolder ++ "/" ++ env ∈ fs)
    (h3 : ∀ region ∈ config.Regions, subFolder ++ "/" ++ env ++ "/" ++ region ∈ fs)
    (h4 : ∀ region ∈ config.Regions, ∀ resource ∈ sub.Resources,
      shouldSkip uf resource env region = false →
      subFolder ++ "/" ++ env ++ "/" ++ region ++ "/" ++ resource.Name ∈ fs) :
    (envBody uf sys config sub subFolder env fs).2 = fs ∧
      noMkdirFail (envBody uf sys config sub subFolder env fs).1 = true := by
  obtain ⟨e1, e2⟩ := hex _ 0o755 h2
  rw [envBody_ok uf sys config sub subFolder env fs e1, e2]
  obtain ⟨a1, a2⟩ := forEach_stable
    (regionBody uf sys sub env (subFolder ++ "/" ++ env)) config.Regions fs
    (fun x hx => regionBody_stable uf sys fs hex hrun sub env _ x (h3 x hx) (h4 x hx))
  exact ⟨a1, (noMkdirFail_cons_mkdir _ _ _ _).2 ⟨e1, a2⟩⟩

theorem subBody_stable (uf : Char → Char → Bool) (sys : Sys (List String))
    (fs : List String)
    (hex : ∀ p m, p ∈ fs → mkdirError (sys.mkdir p m fs).1 = none ∧ (sys.mkdir p m fs).2 = fs)
    (hrun : ∀ n a, (sys.run n a fs).2 = fs)
    (config : Config) (sub : Subscription)
    (h1 : sub.Name ∈ fs)
    (h2 : ∀ env ∈ config.Environments, sub.Name ++ "/" ++ env ∈ fs)
    (h3 : ∀ env ∈ config.Environments, ∀ region ∈ config.Regions,
      sub.Name ++ "/" ++ env ++ "/" ++ region ∈ fs)
    (h4 : ∀ env ∈ config.Environments, ∀ region ∈ config.Regions,
      ∀ resource ∈ sub.Resources, shouldSkip uf resource env region = false →
      sub.Name ++ "/" ++ env ++ "/" ++ region ++ "/" ++ resource.Name ∈ fs) :
    (subBody uf sys config sub fs).2 = fs ∧
      noMkdirFail (subBody uf sys config sub fs).1 = true := by
  obtain ⟨e1, e2⟩ := hex _ 0o755 h1
  rw [subBody_ok uf sys config sub fs e1, e2]
  obtain ⟨a1, a2⟩ := forEach_stable
    (envBody uf sys config sub sub.Name) config.Environments fs
    (fun x hx => envBody_stable uf sys fs hex hrun config sub _ x (h2 x hx) (h3 x hx) (h4 x hx))
  exact ⟨a1, (noMkdirFail_cons_mkdir _ _ _ _).2 ⟨e1, a2⟩⟩

/-- A walk over a tree that already holds every directory of the enumeration
creates nothing, fails nowhere and leaves the tree as it is. -/
theorem walk_stable (uf : Char → Char → Bool) (sys : Sys (List String))
    (fs : List String)
    (hex : ∀ p m, p ∈ fs → mkdirError (sys.mkdir p m fs).1 = none ∧ (sys.mkdir p m fs).2 = fs)
    (hrun : ∀ n a, (sys.run n a fs).2 = fs)
    (config : Config)
    (hall : ∀ p m, Call.mkdir p m ∈ subCalls uf config config.Subscriptions → p ∈ fs) :
    (walk uf sys config fs).2 = fs ∧ noMkdirFail (walk uf sys config fs).1 = true := by
  apply forEach_stable
  intro sub hsub
  apply subBody_stable uf sys fs hex hrun config sub
  · apply hall _ 0o755
    exact List.mem_flatMap.2 ⟨sub, hsub, List.mem_cons_self _ _⟩
  · intro env henv
    apply hall _ 0o755
    refine List.mem_flatMap.2 ⟨sub, hsub, List.mem_cons_of_mem _ ?_⟩
    exact List.mem_flatMap.2 ⟨env, henv, List.mem_cons_self _ _⟩
  · intro env henv region hreg
    apply hall _ 0o755
    refine List.mem_flatMap.2 ⟨sub, hsub, List.mem_cons_of_mem _ ?_⟩
    refine List.mem_flatMap.2 ⟨env, henv, List.mem_cons_of_mem _ ?_⟩
    exact List.mem_flatMap.2 ⟨region, hreg, List.mem_cons_self _ _⟩
  · intro env henv region hreg resource hres hs
    apply hall _ 0o755
    refine List.mem_flatMap.2 ⟨sub, hsub, List.mem_cons_of_mem _ ?_⟩
    refine List.mem_flatMap.2 ⟨env, henv, List.mem_cons_of_mem _ ?_⟩
    refine List.mem_flatMap.2 ⟨region, hreg, List.mem_cons_of_mem _ ?_⟩
    refine List.mem_flatMap.2 ⟨resource, hres, ?_⟩
    simp [leafCalls, hs, pathOf]

theorem walk_cmdCalls_ok {W : Type} (uf : Char → Char → Bool) (sys : Sys W)
    (config : Config) (w : W) (hok : noMkdirFail (walk uf sys config w).1 = true) :
    cmdCalls (walk uf sys config w).1 = specCommands uf config := by
  rw [noMkdirFail_eq] at hok
  rw [cmdCalls_eq, walk_calls uf sys (fun _ => false) config w hok, guardedCalls_exec]
  simp [specCommands, createsOk]

/-! ## Every subscription is reached -/

theorem forEach_reaches {α W : Type} (body : α → W → List Event × W) (f : α → String)
    (xs : List α) (h : ∀ x ∈ xs, ∀ w, f x ∈ mkdirCalls (body x w).1) :
    ∀ w, ∀ x ∈ xs, f x ∈ mkdirCalls (forEach body xs w).1 := by
  induction xs with
  | nil => intro w x hx; cases hx
  | cons y ys ih =>
    intro w x hx
    rw [forEach_cons]
    simp only [mkdirCalls, List.filterMap_append, List.mem_append]
    rcases List.mem_cons.1 hx with rfl | hx
    · exact Or.inl (h x (List.mem_cons_self x ys) w)
    · exact Or.inr (ih (fun z hz => h z (List.mem_cons_of_mem y hz)) _ x hx)

theorem subBody_reaches {W : Type} (uf : Char → Char → Bool) (sys : Sys W) (config : Config)
    (sub : Subscription) (w : W) : sub.Name ∈ mkdirCalls (subBody uf sys config sub w).1 := by
  cases hm : mkdirError (sys.mkdir sub.Name 0o755 w).1 with
  | some m =>
    rw [subBody_fail uf sys config sub w m hm]
    simp [mkdirCalls, mkdirOf]
  | none =>
    rw [subBody_ok uf sys config sub w hm]
    simp [mkdirCalls, mkdirOf]

theorem walk_reaches {W : Type} (uf : Char → Char → Bool) (sys : Sys W) (config : Config)
    (w : W) : ∀ sub ∈ config.Subscriptions, sub.Name ∈ mkdirCalls (walk uf sys config w).1 :=
  forEach_reaches (subBody uf sys config) (fun sub => sub.Name) config.Subscriptions
    (fun x _ w1 => subBody_reaches uf sys config x w1) w

/-! ## Every directory creation is that of a segment or of a leaf that is not skipped -/

theorem resourceBody_validMkdir {W : Type} (uf : Char → Char → Bool) (sys : Sys W)
    (config : Config) (sub : Subscription) (env region : String) (resource : Resource)
    (hsub : sub ∈ config.Subscriptions) (henv : env ∈ config.Environments)
    (hreg : region ∈ config.Regions) (hres : resource ∈ sub.Resources) (w : W) :
    ∀ ev ∈ (resourceBody uf sys sub env region (sub.Name ++ "/" ++ env ++ "/" ++ region)
      resource w).1, ValidMkdir uf config ev := by
  cases hs : shouldSkip uf resource env region with
  | true => simp [resourceBody_skip uf sys sub env region _ resource w hs]
  | false =>
    have hv : ∀ res, ValidMkdir uf config (Event.mkdir
        (sub.Name ++ "/" ++ env ++ "/" ++ region ++ "/" ++ resource.Name) 0o755 res) :=
      fun _ => Or.inr (Or.inr (Or.inr
        ⟨sub, hsub, resource, hres, env, henv, region, hreg, hs, rfl⟩))
    cases hm : mkdirError (sys.mkdir (sub.Name ++ "/" ++ env ++ "/" ++ region ++ "/" ++
        resource.Name) 0o755 w).1 with
    | some m =>
      rw [resourceBody_fail uf sys sub env region _ resource w m hs hm]
      simp only [List.forall_mem_cons]
      exact ⟨hv _, True.intro, fun x hx => by cases hx⟩
    | none =>
      rw [resourceBody_ok uf sys sub env region _ resource w hs hm]
      cases hr : (sys.run "terramate" ["create", "--tags",
        ",".intercalate [sub.Name, resource.Name, region, env],
        sub.Name ++ "/" ++ env ++ "/" ++ region ++ "/" ++ resource.Name]
        (sys.mkdir (sub.Name ++ "/" ++ env ++ "/" ++ region ++ "/" ++
          resource.Name) 0o755 w).2).1 <;>
      · simp only [runTerramateCommand, hr, List.forall_mem_cons, List.forall_mem_append]
        and_intros
        all_goals first | exact hv _ | exact True.intro | (intro x hx; cases hx)

theorem regionBody_validMkdir {W : Type} (uf : Char → Char → Bool) (sys : Sys W)
    (config : Config) (sub : Subscription) (env region : String)
    (hsub : sub ∈ config.Subscriptions) (henv : env ∈ config.Environments)
    (hreg : region ∈ config.Regions) (w : W) :
    ∀ ev ∈ (regionBody uf sys sub env (sub.Name ++ "/" ++ env) region w).1,
      ValidMkdir uf config ev := by
  have hv : ∀ res, ValidMkdir uf config (Event.mkdir
      (sub.Name ++ "/" ++ env ++ "/" ++ region) 0o755 res) :=
    fun _ => Or.inr (Or.inr (Or.inl ⟨sub, hsub, env, henv, region, hreg, rfl⟩))
  cases hm : mkdirError (sys.mkdir (sub.Name ++ "/" ++ env ++ "/" ++ region) 0o755 w).1 with
  | some m =>
    rw [regionBody_fail uf sys sub env _ region w m hm]
    simp only [List.forall_mem_cons]
    exact ⟨hv _, True.intro, fun x hx => by cases hx⟩
  | none =>
    rw [regionBody_ok uf sys sub env _ region w hm]
    intro ev hev
    rcases List.mem_cons.1 hev with rfl | hev
    · exact hv _
    · exact forEach_forall (ValidMkdir uf config) _ _
        (fun x hx w1 =>
          resourceBody_validMkdir uf sys config sub env region x hsub henv hreg hx w1)
        _ ev hev

theorem envBody_validMkdir {W : Type} (uf : Char → Char → Bool) (sys : Sys W)
    (config : Config) (sub : Subscription) (env : String)
    (hsub : sub ∈ config.Subscriptions) (henv : env ∈ config.Environments) (w : W) :
    ∀ ev ∈ (envBody uf sys config sub sub.Name env w).1, ValidMkdir uf config ev := by
  have hv : ∀ res, ValidMkdir uf config (Event.mkdir (sub.Name ++ "/" ++ env) 0o755 res) :=
    fun _ => Or.inr (Or.inl ⟨sub, hsub, env, henv, rfl⟩)
  cases hm : mkdirError (sys.mkdir (sub.Name ++ "/" ++ env) 0o755 w).1 with
  | some m =>
    rw [envBody_fail uf sys config sub _ env w m hm]
    simp only [List.forall_mem_cons]
    exact ⟨hv _, True.intro, fun x hx => by cases hx⟩
  | none =>
    rw [envBody_ok uf sys config sub _ env w hm]
    intro ev hev
    rcases List.mem_cons.1 hev with rfl | hev
    · exact hv _
    · exact forEach_forall (ValidMkdir uf config) _ _
        (fun x hx w1 => regionBody_validMkdir uf sys config sub env x hsub henv hx w1)
        _ ev hev

theorem subBody_validMkdir {W : Type} (uf : Char → Char → Bool) (sys : Sys W)
    (config : Config) (sub : Subscription) (hsub : sub ∈ config.Subscriptions) (w : W) :
    ∀ ev ∈ (subBody uf sys config sub w).1, ValidMkdir uf config ev := by
  have hv : ∀ res, ValidMkdir uf config (Event.mkdir sub.Name 0o755 res) :=
    fun _ => Or.inl ⟨sub, hsub, rfl⟩
  cases hm : mkdirError (sys.mkdir sub.Name 0o755 w).1 with
  | some m =>
    rw [subBody_fail uf sys config sub w m hm]
    simp only [List.forall_mem_cons]
    exact ⟨hv _, True.intro, fun x hx => by cases hx⟩
  | none =>
    rw [subBody_ok uf sys config sub w hm]
    intro ev hev
    rcases List.mem_cons.1 hev with rfl | hev
    · exact hv _
    · exact forEach_forall (ValidMkdir uf config) _ _
        (fun x hx w1 => envBody_validMkdir uf sys config sub x hsub hx w1) _ ev hev

theorem walk_validMkdir {W : Type} (uf : Char → Char → Bool) (sys : Sys W) (config : Config)
    (w : W) : ∀ ev ∈ (walk uf sys config w).1, ValidMkdir uf config ev :=
  forEach_forall (ValidMkdir uf config) _ _
    (fun x hx w1 => subBody_validMkdir uf sys config x hx w1) w

/-! ## Counting in the enumeration -/

theorem count_one_of_nodup {α : Type} [BEq α] [LawfulBEq α] {a : α} {l : List α}
    (d : l.Nodup) (h : a ∈ l) : l.count a = 1 := by
  induction l with
  | nil => cases h
  | cons x xs ih =>
    rw [List.nodup_cons] at d
    rcases List.mem_cons.1 h with rfl | h
    · simp [List.count_cons, List.count_eq_zero_of_not_mem d.1]
    · have hne : x ≠ a := fun e => d.1 (e ▸ h)
      simp [List.count_cons, ih d.2 h, hne]

theorem mem_combos (config : Config) (sub : Subscription) (env region : String)
    (resource : Resource) :
    (sub, env, region, resource) ∈ combos config ↔
      sub ∈ config.Subscriptions ∧ env ∈ config.Environments ∧ region ∈ config.Regions ∧
        resource ∈ sub.Resources := by
  simp only [combos, List.mem_flatMap, List.mem_map, Prod.mk.injEq]
  constructor
  · rintro ⟨s, hs, e, he, g, hg, r, hr, rfl, rfl, rfl, rfl⟩
    exact ⟨hs, he, hg, hr⟩
  · rintro ⟨hs, he, hg, hr⟩
    exact ⟨sub, hs, env, he, region, hg, resource, hr, rfl, rfl, rfl, rfl⟩

theorem sublist_flatMap {α β : Type} (f g : α → List β) (l : List α)
    (h : ∀ x ∈ l, List.Sublist (f x) (g x)) : List.Sublist (l.flatMap f) (l.flatMap g) := by
  induction l with
  | nil => simp
  | cons x xs ih =>
    simp only [List.flatMap_cons]
    exact List.Sublist.append (h x (List.mem_cons_self x xs))
      (ih (fun y hy => h y (List.mem_cons_of_mem x hy)))

theorem leafCalls_paths (uf : Char → Char → Bool) (sub : Subscription) (env region : String)
    (resource : Resource) :
    (leafCalls uf sub env region resource).filterMap pathOfCall =
      if (!shouldSkip uf resource env region) = true
      then [pathOf sub env region resource] else [] := by
  unfold leafCalls
  by_cases hs : shouldSkip uf resource env region = true
  · simp [hs]
  · simp [hs, pathOfCall]

/-- The leaf paths of the combinations that are not skipped are among the
directory paths of the enumeration, in the same order. -/
theorem leafPaths_sublist (uf : Char → Char → Bool) (config : Config) :
    List.Sublist
      (((combos config).filter fun x => !shouldSkip uf x.2.2.2 x.2.1 x.2.2.1).map
        fun x => pathOf x.1 x.2.1 x.2.2.1 x.2.2.2)
      (specPaths uf config) := by
  simp only [specPaths, subCalls, envCalls, regionCalls, resCalls, combos,
    List.filterMap_flatMap, List.filter_flatMap, List.map_flatMap, List.filterMap_cons,
    pathOfCall, leafCalls_paths]
  apply sublist_flatMap
  intro sub _
  apply List.Sublist.cons
  apply sublist_flatMap
  intro env _
  apply List.Sublist.cons
  apply sublist_flatMap
  intro region _
  apply List.Sublist.cons
  rw [flatMap_ite_singleton, List.filter_map, List.map_map]
  exact List.Sublist.refl _

theorem specCommands_nodup (uf : Char → Char → Bool) (config : Config)
    (h : (specPaths uf config).Nodup) : (specCommands uf config).Nodup := by
  have h1 := List.Nodup.sublist (leafPaths_sublist uf config) h
  have h2 : ((combos config).filter fun x => !shouldSkip uf x.2.2.2 x.2.1 x.2.2.1).map
      (fun x => pathOf x.1 x.2.1 x.2.2.1 x.2.2.2) =
      (specCommands uf config).map (fun inv => inv.2.getD 3 "") := by
    simp [specCommands, invocation, Function.comp_def]
  rw [h2] at h1
  exact List.Nodup.of_map _ h1

theorem leafPath_mem (uf : Char → Char → Bool) (config : Config) (sub : Subscription)
    (env region : String) (resource : Resource)
    (hmem : (sub, env, region, resource) ∈ combos config)
    (hskip : shouldSkip uf resource env region = false) :
    pathOf sub env region resource ∈ specPaths uf config := by
  apply List.Sublist.subset (leafPaths_sublist uf config)
  rw [List.mem_map]
  refine ⟨(sub, env, region, resource), ?_, rfl⟩
  rw [List.mem_filter]
  exact ⟨hmem, by simp [hskip]⟩

theorem invocation_mem (uf : Char → Char → Bool) (config : Config) (sub : Subscription)
    (env region : String) (resource : Resource)
    (hmem : (sub, env, region, resource) ∈ combos config)
    (hskip : shouldSkip uf resource env region = false) :
    invocation sub env region resource ∈ specCommands uf config := by
  unfold specCommands
  rw [List.mem_map]
  refine ⟨(sub, env, region, resource), ?_, rfl⟩
  rw [List.mem_filter]
  exact ⟨hmem, by simp [hskip]⟩

/-! ## One iteration in the middle of a loop -/

theorem forEach_split {α W : Type} (body : α → W → List Event × W) (xs : List α) (x : α)
    (ys : List α) (w : W) :
    forEach body (xs ++ x :: ys) w =
      ((forEach body xs w).1 ++ ((body x (forEach body xs w).2).1 ++
        (forEach body ys (body x (forEach body xs w).2).2).1),
       (forEach body ys (body x (forEach body xs w).2).2).2) := by
  rw [forEach_append, forEach_cons]

theorem resourceBody_ok_line {W : Type} (uf : Char → Char → Bool) (sys : Sys W)
    (sub : Subscription) (env region regionFolder : String) (resource : Resource) (w : W)
    (hs : shouldSkip uf resource env region = false)
    (hm : mkdirError (sys.mkdir (regionFolder ++ "/" ++ resource.Name) 0o755 w).1 = none) :
    resourceBody uf sys sub env region regionFolder resource w =
      (Event.mkdir (regionFolder ++ "/" ++ resource.Name) 0o755
          (sys.mkdir (regionFolder ++ "/" ++ resource.Name) 0o755 w).1 ::
        Event.print ("Running terramate command in folder: " ++
          (regionFolder ++ "/" ++ resource.Name) ++ " with tags: " ++
          ",".intercalate [sub.Name, resource.Name, region, env] ++ "\n") ::
        Event.exec "terramate" ["create", "--tags",
            ",".intercalate [sub.Name, resource.Name, region, env],
            regionFolder ++ "/" ++ resource.Name]
          (sys.run "terramate" ["create", "--tags",
            ",".intercalate [sub.Name, resource.Name, region, env],
            regionFolder ++ "/" ++ resource.Name]
            (sys.mkdir (regionFolder ++ "/" ++ resource.Name) 0o755 w).2).1 ::
        commandErrorLine (regionFolder ++ "/" ++ resource.Name)
          (sys.run "terramate" ["create", "--tags",
            ",".intercalate [sub.Name, resource.Name, region, env],
            regionFolder ++ "/" ++ resource.Name]
            (sys.mkdir (regionFolder ++ "/" ++ resource.Name) 0o755 w).2).1,
       (sys.run "terramate" ["create", "--tags",
            ",".intercalate [sub.Name, resource.Name, region, env],
            regionFolder ++ "/" ++ resource.Name]
            (sys.mkdir (regionFolder ++ "/" ++ resource.Name) 0o755 w).2).2) := by
  rw [resourceBody_ok uf sys sub env region regionFolder resource w hs hm]
  cases hr : (sys.run "terramate" ["create", "--tags",
      ",".intercalate [sub.Name, resource.Name, region, env],
      regionFolder ++ "/" ++ resource.Name]
      (sys.mkdir (regionFolder ++ "/" ++ resource.Name) 0o755 w).2).1 <;>
  simp [runTerramateCommand, commandErrorLine, hr]

/-! ## shouldSkip -/

theorem foldMatch_iff (uf : Char → Char → Bool) (v : String) (xs : List String) :
    foldMatch uf v xs = true ↔ ∃ x ∈ xs, EqualFold uf v x = true := by
  induction xs with
  | nil => simp [foldMatch]
  | cons x xs ih =>
    by_cases h : EqualFold uf v x = true
    · simp [foldMatch, h]
    · simp [foldMatch, h, ih]

theorem shouldSkip_iff (uf : Char → Char → Bool) (resource : Resource) (env region : String) :
    shouldSkip uf resource env region = true ↔
      ((∃ x ∈ resource.ExcludeFrom.Environments, EqualFold uf env x = true) ∨
       (∃ y ∈ resource.ExcludeFrom.Regions, EqualFold uf region y = true)) := by
  rw [← foldMatch_iff, ← foldMatch_iff]
  unfold shouldSkip
  by_cases h1 : foldMatch uf env resource.ExcludeFrom.Environments = true
  · simp [h1]
  · by_cases h2 : foldMatch uf region resource.ExcludeFrom.Regions = true
    · simp [h2]
    · simp [h1, h2]

/-- C1: `shouldSkip` is true exactly when the environment case-insensitively
equals an excluded environment or the region case-insensitively equals an
excluded region; the entry "EU-WEST" matches the region "eu-west"; a resource
with both exclusion lists empty is never skipped. -/
theorem shouldSkip_spec (uf : Char → Char → Bool) :
    (∀ (resource : Resource) (env region : String),
      shouldSkip uf resource env region = true ↔
        ((∃ x ∈ resource.ExcludeFrom.Environments, EqualFold uf env x = true) ∨
         (∃ y ∈ resource.ExcludeFrom.Regions, EqualFold uf region y = true))) ∧
    EqualFold uf "eu-west" "EU-WEST" = true ∧
    (∀ (resource : Resource) (env : String),
      "EU-WEST" ∈ resource.ExcludeFrom.Regions → shouldSkip uf resource env "eu-west" = true) ∧
    (∀ (name env region : String),
      shouldSkip uf ⟨name, ⟨[], []⟩⟩ env region = false) := by
  refine ⟨shouldSkip_iff uf, rfl, ?_, ?_⟩
  · intro resource env hmem
    exact (shouldSkip_iff uf resource env "eu-west").2 (Or.inr ⟨"EU-WEST", hmem, rfl⟩)
  · intro name env region
    rfl

theorem mkdirCalls_eq (t : List Event) : mkdirCalls t = (calls t).filterMap pathOfCall := by
  unfold mkdirCalls calls
  rw [List.filterMap_filterMap]
  congr 1
  funext ev
  cases ev <;> rfl

/-! ## The walk when no directory creation fails -/

/-- C2, counterexample: with the resource "r" listed twice and the environment
"dev" listed twice, the combination (s, dev, eu, r) is not skipped and no
directory creation fails, yet s/dev/eu/r is created four times and the command
with tags s,r,eu,dev is invoked four times. -/
theorem walk_leaf_repeated :
    ((⟨"s", [⟨"r", ⟨[], []⟩⟩, ⟨"r", ⟨[], []⟩⟩]⟩ : Subscription), "dev", "eu",
      (⟨"r", ⟨[], []⟩⟩ : Resource)) ∈ combos dupConfig ∧
    shouldSkip asciiFold ⟨"r", ⟨[], []⟩⟩ "dev" "eu" = false ∧
    noMkdirFail (walk asciiFold okSys dupConfig ()).1 = true ∧
    (mkdirCalls (walk asciiFold okSys dupConfig ()).1).count "s/dev/eu/r" = 4 ∧
    (cmdCalls (walk asciiFold okSys dupConfig ()).1).count
      ("terramate", ["create", "--tags", "s,r,eu,dev", "s/dev/eu/r"]) = 4 :=
  ⟨by decide, rfl, rfl, by decide, by decide⟩

/-- C2 (amended): for every configuration in which no two iterations of the
walk name the same directory (the directory paths of its enumeration, segments
and leaves that are not skipped, are pairwise distinct) and every combination
of it for which `shouldSkip` is false, a run of the walk in which no directory
creation fails creates `<subscription>/<environment>/<region>/<resource>`
exactly once and invokes the command exactly once for that combination, with
the tag string `subscription,resource,region,environment`. -/
theorem walk_leaf_once {W : Type} (uf : Char → Char → Bool) (sys : Sys W) (config : Config)
    (w : W) (sub : Subscription) (env region : String) (resource : Resource)
    (hmem : (sub, env, region, resource) ∈ combos config)
    (hskip : shouldSkip uf resource env region = false)
    (hdistinct : (specPaths uf config).Nodup)
    (hok : noMkdirFail (walk uf sys config w).1 = true) :
    (mkdirCalls (walk uf sys config w).1).count
      (sub.Name ++ "/" ++ env ++ "/" ++ region ++ "/" ++ resource.Name) = 1 ∧
    (cmdCalls (walk uf sys config w).1).count
      ("terramate",
        ["create", "--tags", ",".intercalate [sub.Name, resource.Name, region, env],
         sub.Name ++ "/" ++ env ++ "/" ++ region ++ "/" ++ resource.Name]) = 1 := by
  have hm : mkdirCalls (walk uf sys config w).1 = specPaths uf config := by
    rw [mkdirCalls_eq, walk_calls_ok uf sys config w hok, specPaths]
  have hc := walk_cmdCalls_ok uf sys config w hok
  rw [hm, hc]
  exact ⟨count_one_of_nodup hdistinct (leafPath_mem uf config sub env region resource hmem hskip),
    count_one_of_nodup (specCommands_nodup uf config hdistinct)
      (invocation_mem uf config sub env region resource hmem hskip)⟩

theorem walk_leaf_once_witness :
    ((⟨"payments", [⟨"db", ⟨["prod"], []⟩⟩]⟩ : Subscription), "dev", "us",
      (⟨"db", ⟨["prod"], []⟩⟩ : Resource)) ∈ combos exampleConfig ∧
    shouldSkip asciiFold ⟨"db", ⟨["prod"], []⟩⟩ "dev" "us" = false ∧
    (specPaths asciiFold exampleConfig).Nodup ∧
    noMkdirFail (walk asciiFold okSys exampleConfig ()).1 = true ∧
    (mkdirCalls (walk asciiFold okSys exampleConfig ()).1).count "payments/dev/us/db" = 1 ∧
    (cmdCalls (walk asciiFold okSys exampleConfig ()).1).count
      ("terramate", ["create", "--tags", "payments,db,us,dev", "payments/dev/us/db"]) = 1 :=
  ⟨by decide, rfl, by decide, rfl,
   (walk_leaf_once asciiFold okSys exampleConfig ()
      ⟨"payments", [⟨"db", ⟨["prod"], []⟩⟩]⟩ "dev" "us" ⟨"db", ⟨["prod"], []⟩⟩
      (by decide) rfl (by decide) rfl).1,
   (walk_leaf_once asciiFold okSys exampleConfig ()
      ⟨"payments", [⟨"db", ⟨["prod"], []⟩⟩]⟩ "dev" "us" ⟨"db", ⟨["prod"], []⟩⟩
      (by decide) rfl (by decide) rfl).2⟩

/-- C4: in a run in which no directory creation fails, the sequence of command
invocations is the enumeration of subscriptions, then environments, then
regions, then the subscription's resources, each in configuration order,
keeping exactly the combinations for which `shouldSkip` is false. -/
theorem walk_commands_order {W : Type} (uf : Char → Char → Bool) (sys : Sys W)
    (config : Config) (w : W) (hok : noMkdirFail (walk uf sys config w).1 = true) :
    cmdCalls (walk uf sys config w).1 = specCommands uf config :=
  walk_cmdCalls_ok uf sys config w hok

theorem walk_commands_order_witness :
    noMkdirFail (walk asciiFold okSys exampleConfig ()).1 = true ∧
    cmdCalls (walk asciiFold okSys exampleConfig ()).1 = specCommands asciiFold exampleConfig :=
  ⟨rfl, walk_commands_order asciiFold okSys exampleConfig () rfl⟩

/-- C6: for the configuration with subscription "payments", environments dev
and prod, regions eu and us and one resource "db" excluded from prod, a run in
which no directory creation fails creates payments/dev/eu/db and
payments/dev/us/db, issues no creation of payments/prod/eu/db or
payments/prod/us/db, and makes exactly two command invocations, with tags
payments,db,eu,dev and then payments,db,us,dev. -/
theorem example_run {W : Type} (uf : Char → Char → Bool) (sys : Sys W) (w : W)
    (hok : noMkdirFail (walk uf sys exampleConfig w).1 = true) :
    mkdirCalls (walk uf sys exampleConfig w).1 =
      ["payments", "payments/dev", "payments/dev/eu", "payments/dev/eu/db",
       "payments/dev/us", "payments/dev/us/db",
       "payments/prod", "payments/prod/eu", "payments/prod/us"] ∧
    "payments/dev/eu/db" ∈ mkdirCalls (walk uf sys exampleConfig w).1 ∧
    "payments/dev/us/db" ∈ mkdirCalls (walk uf sys exampleConfig w).1 ∧
    "payments/prod/eu/db" ∉ mkdirCalls (walk uf sys exampleConfig w).1 ∧
    "payments/prod/us/db" ∉ mkdirCalls (walk uf sys exampleConfig w).1 ∧
    cmdCalls (walk uf sys exampleConfig w).1 =
      [("terramate", ["create", "--tags", "payments,db,eu,dev", "payments/dev/eu/db"]),
       ("terramate", ["create", "--tags", "payments,db,us,dev", "payments/dev/us/db"])] := by
  have hc := walk_calls_ok uf sys exampleConfig w hok
  have hspec : subCalls uf exampleConfig exampleConfig.Subscriptions =
      [Call.mkdir "payments" 0o755, Call.mkdir "payments/dev" 0o755,
       Call.mkdir "payments/dev/eu" 0o755, Call.mkdir "payments/dev/eu/db" 0o755,
       Call.exec "terramate" ["create", "--tags", "payments,db,eu,dev", "payments/dev/eu/db"],
       Call.mkdir "payments/dev/us" 0o755, Call.mkdir "payments/dev/us/db" 0o755,
       Call.exec "terramate" ["create", "--tags", "payments,db,us,dev", "payments/dev/us/db"],
       Call.mkdir "payments/prod" 0o755, Call.mkdir "payments/prod/eu" 0o755,
       Call.mkdir "payments/prod/us" 0o755] := rfl
  rw [hspec] at hc
  have hm : mkdirCalls (walk uf sys exampleConfig w).1 =
      ["payments", "payments/dev", "payments/dev/eu", "payments/dev/eu/db",
       "payments/dev/us", "payments/dev/us/db",
       "payments/prod", "payments/prod/eu", "payments/prod/us"] := by
    rw [mkdirCalls_eq, hc]; rfl
  have hx : cmdCalls (walk uf sys exampleConfig w).1 =
      [("terramate", ["create", "--tags", "payments,db,eu,dev", "payments/dev/eu/db"]),
       ("terramate", ["create", "--tags", "payments,db,us,dev", "payments/dev/us/db"])] := by
    rw [cmdCalls_eq, hc]; rfl
  rw [hm, hx]
  refine ⟨rfl, by decide, by decide, by decide, by decide, rfl⟩

theorem example_run_witness :
    noMkdirFail (walk asciiFold okSys exampleConfig ()).1 = true ∧
    "payments/prod/eu/db" ∉ mkdirCalls (walk asciiFold okSys exampleConfig ()).1 ∧
    cmdCalls (walk asciiFold okSys exampleConfig ()).1 =
      [("terramate", ["create", "--tags", "payments,db,eu,dev", "payments/dev/eu/db"]),
       ("terramate", ["create", "--tags", "payments,db,us,dev", "payments/dev/us/db"])] :=
  ⟨rfl, (example_run asciiFold okSys () rfl).2.2.2.1, (example_run asciiFold okSys () rfl).2.2.2.2.2⟩

/-! ## The walk when directory creations fail -/

/-- C7: for every configuration, every system (so every assignment of
outcomes to directory creations, also one that changes as the run goes on) and
every iteration that is not skipped, given by the position of its
subscription, environment, region and resource in their lists. Here `a0` is
the run over the earlier subscriptions and `m1` the creation of
`<subscription>` after it, `a1` the run over the earlier environments and `m2`
the creation of `<subscription>/<environment>`, `a2` the run over the earlier
regions and `m3` the creation of the region directory, `a3` the run over the
earlier resources and `m4` the creation of the leaf, `c` the command. The
trace of the walk is one of five: the first of the four creations that fails
(an error other than already-exists) is followed by its log line and then by
the walk's next sibling at that level, with no deeper creation and no command
of this iteration; the command of the iteration is invoked exactly when none
of the four fails. Moreover, when the failures of the run are those of the
paths `F` marks, the commands are those of the combinations that are not
skipped and whose four creations did not fail, in enumeration order. -/
theorem walk_failures {W : Type} (uf : Char → Char → Bool) (sys : Sys W) (config : Config)
    (w : W) (S1 S2 : List Subscription) (sub : Subscription) (E1 E2 : List String)
    (env : String) (G1 G2 : List String) (region : String) (R1 R2 : List Resource)
    (resource : Resource)
    (hS : config.Subscriptions = S1 ++ sub :: S2)
    (hE : config.Environments = E1 ++ env :: E2)
    (hG : config.Regions = G1 ++ region :: G2)
    (hR : sub.Resources = R1 ++ resource :: R2)
    (hskip : shouldSkip uf resource env region = false)
    (a0 : List Event × W) (h0 : a0 = forEach (subBody uf sys config) S1 w)
    (m1 : Option OSError × W) (h1 : m1 = sys.mkdir sub.Name 0o755 a0.2)
    (a1 : List Event × W) (h2 : a1 = forEach (envBody uf sys config sub sub.Name) E1 m1.2)
    (m2 : Option OSError × W) (h3 : m2 = sys.mkdir (sub.Name ++ "/" ++ env) 0o755 a1.2)
    (a2 : List Event × W)
    (h4 : a2 = forEach (regionBody uf sys sub env (sub.Name ++ "/" ++ env)) G1 m2.2)
    (m3 : Option OSError × W)
    (h5 : m3 = sys.mkdir (sub.Name ++ "/" ++ env ++ "/" ++ region) 0o755 a2.2)
    (a3 : List Event × W)
    (h6 : a3 = forEach (resourceBody uf sys sub env region
      (sub.Name ++ "/" ++ env ++ "/" ++ region)) R1 m3.2)
    (m4 : Option OSError × W)
    (h7 : m4 = sys.mkdir (sub.Name ++ "/" ++ env ++ "/" ++ region ++ "/" ++ resource.Name)
      0o755 a3.2)
    (c : Option String × W)
    (h8 : c = sys.run "terramate" ["create", "--tags",
      ",".intercalate [sub.Name, resource.Name, region, env],
      sub.Name ++ "/" ++ env ++ "/" ++ region ++ "/" ++ resource.Name] m4.2) :
    (∀ e, mkdirError m1.1 = some e →
      (walk uf sys config w).1 =
        a0.1 ++ ([Event.mkdir sub.Name 0o755 m1.1,
          Event.print ("Error creating subscription folder \x27" ++ sub.Name ++ "\x27: " ++
            e ++ "\n")] ++
        afterSub uf sys config S2 m1.2)) ∧
    (mkdirError m1.1 = none → ∀ e, mkdirError m2.1 = some e →
      (walk uf sys config w).1 =
        a0.1 ++ (Event.mkdir sub.Name 0o755 m1.1 :: (a1.1 ++
          ([Event.mkdir (sub.Name ++ "/" ++ env) 0o755 m2.1,
            Event.print ("Error creating environment folder \x27" ++
              (sub.Name ++ "/" ++ env) ++ "\x27: " ++ e ++ "\n")] ++
          afterEnv uf sys config sub E2 S2 m2.2)))) ∧
    (mkdirError m1.1 = none → mkdirError m2.1 = none → ∀ e, mkdirError m3.1 = some e →
      (walk uf sys config w).1 =
        a0.1 ++ (Event.mkdir sub.Name 0o755 m1.1 :: (a1.1 ++
          (Event.mkdir (sub.Name ++ "/" ++ env) 0o755 m2.1 :: (a2.1 ++
            ([Event.mkdir (sub.Name ++ "/" ++ env ++ "/" ++ region) 0o755 m3.1,
              Event.print ("Error creating region folder \x27" ++
                (sub.Name ++ "/" ++ env ++ "/" ++ region) ++ "\x27: " ++ e ++ "\n")] ++
            afterRegion uf sys config sub env G2 E2 S2 m3.2)))))) ∧
    (mkdirError m1.1 = none → mkdirError m2.1 = none → mkdirError m3.1 = none →
      ∀ e, mkdirError m4.1 = some e →
      (walk uf sys config w).1 =
        a0.1 ++ (Event.mkdir sub.Name 0o755 m1.1 :: (a1.1 ++
          (Event.mkdir (sub.Name ++ "/" ++ env) 0o755 m2.1 :: (a2.1 ++
            (Event.mkdir (sub.Name ++ "/" ++ env ++ "/" ++ region) 0o755 m3.1 :: (a3.1 ++
              ([Event.mkdir (sub.Name ++ "/" ++ env ++ "/" ++ region ++ "/" ++ resource.Name)
                  0o755 m4.1,
                Event.print ("Error creating resource folder \x27" ++
                  (sub.Name ++ "/" ++ env ++ "/" ++ region ++ "/" ++ resource.Name) ++
                  "\x27: " ++ e ++ "\n")] ++
              afterResource uf sys config sub env region R2 G2 E2 S2 m4.2)))))))) ∧
    (mkdirError m1.1 = none → mkdirError m2.1 = none → mkdirError m3.1 = none →
      mkdirError m4.1 = none →
      (walk uf sys config w).1 =
        a0.1 ++ (Event.mkdir sub.Name 0o755 m1.1 :: (a1.1 ++
          (Event.mkdir (sub.Name ++ "/" ++ env) 0o755 m2.1 :: (a2.1 ++
            (Event.mkdir (sub.Name ++ "/" ++ env ++ "/" ++ region) 0o755 m3.1 :: (a3.1 ++
              (Event.mkdir (sub.Name ++ "/" ++ env ++ "/" ++ region ++ "/" ++ resource.Name)
                  0o755 m4.1 ::
               Event.print ("Running terramate command in folder: " ++
                  (sub.Name ++ "/" ++ env ++ "/" ++ region ++ "/" ++ resource.Name) ++
                  " with tags: " ++
                  ",".intercalate [sub.Name, resource.Name, region, env] ++ "\n") ::
               Event.exec "terramate" ["create", "--tags",
                  ",".intercalate [sub.Name, resource.Name, region, env],
                  sub.Name ++ "/" ++ env ++ "/" ++ region ++ "/" ++ resource.Name] c.1 ::
               (commandErrorLine
                  (sub.Name ++ "/" ++ env ++ "/" ++ region ++ "/" ++ resource.Name) c.1 ++
                afterResource uf sys config sub env region R2 G2 E2 S2 c.2))))))))) ∧
    (∀ F : String → Bool, followsF F (walk uf sys config w).1 = true →
      calls (walk uf sys config w).1 = guardedCalls uf F config ∧
      cmdCalls (walk uf sys config w).1 =
        ((combos config).filter fun x =>
            !shouldSkip uf x.2.2.2 x.2.1 x.2.2.1 && createsOk F x.1 x.2.1 x.2.2.1 x.2.2.2).map
          (fun x => invocation x.1 x.2.1 x.2.2.1 x.2.2.2)) := by
  subst h0 h1 h2 h3 h4 h5 h6 h7 h8
  refine ⟨?_, ?_, ?_, ?_, ?_, ?_⟩
  · intro e he1
    rw [walk, hS, forEach_split, subBody_fail uf sys config sub _ e he1]
    simp [afterSub]
  · intro he1 e he2
    rw [walk, hS, forEach_split, subBody_ok uf sys config sub _ he1]
    simp only []
    rw [hE, forEach_split, envBody_fail uf sys config sub _ env _ e he2]
    simp [afterSub, afterEnv]
  · intro he1 he2 e he3
    rw [walk, hS, forEach_split, subBody_ok uf sys config sub _ he1]
    simp only []
    rw [hE, forEach_split, envBody_ok uf sys config sub _ env _ he2]
    simp only []
    rw [hG, forEach_split, regionBody_fail uf sys sub env _ region _ e he3]
    simp [afterSub, afterEnv, afterRegion]
  · intro he1 he2 he3 e he4
    rw [walk, hS, forEach_split, subBody_ok uf sys config sub _ he1]
    simp only []
    rw [hE, forEach_split, envBody_ok uf sys config sub _ env _ he2]
    simp only []
    rw [hG, forEach_split, regionBody_ok uf sys sub env _ region _ he3]
    simp only []
    rw [hR, forEach_split, resourceBody_fail uf sys sub env region _ resource _ e hskip he4]
    simp [afterSub, afterEnv, afterRegion, afterResource, hG, hR]
  · intro he1 he2 he3 he4
    rw [walk, hS, forEach_split, subBody_ok uf sys config sub _ he1]
    simp only []
    rw [hE, forEach_split, envBody_ok uf sys config sub _ env _ he2]
    simp only []
    rw [hG, forEach_split, regionBody_ok uf sys sub env _ region _ he3]
    simp only []
    rw [hR, forEach_split, resourceBody_ok_line uf sys sub env region _ resource _ hskip he4]
    simp [afterSub, afterEnv, afterRegion, afterResource, hG, hR]
  · intro F hF
    have hc := walk_calls uf sys F config w hF
    exact ⟨hc, by rw [cmdCalls_eq, hc, guardedCalls_exec]⟩

theorem walk_failures_witness :
    mkdirResults (walk asciiFold
        (parentFs [("a/x/y", "a/x"), ("a/x/y/db", "a/x/y")]) nestedConfig []).1 =
      [("a", 0o755, none),
       ("a/x/y", 0o755, some ⟨"no such file or directory", false⟩),
       ("a/x", 0o755, none), ("a/x/y", 0o755, none), ("a/x/y/db", 0o755, none)] ∧
    (walk asciiFold (parentFs [("a/x/y", "a/x"), ("a/x/y/db", "a/x/y")]) nestedConfig []).1 =
      [Event.mkdir "a" 0o755 none,
       Event.mkdir "a/x/y" 0o755 (some ⟨"no such file or directory", false⟩),
       Event.print "Error creating environment folder \x27a/x/y\x27: no such file or directory\n",
       Event.mkdir "a/x" 0o755 none,
       Event.mkdir "a/x/y" 0o755 none,
       Event.mkdir "a/x/y/db" 0o755 none,
       Event.print "Running terramate command in folder: a/x/y/db with tags: a,db,y,x\n",
       Event.exec "terramate" ["create", "--tags", "a,db,y,x", "a/x/y/db"] none] :=
  ⟨by decide,
   (walk_failures asciiFold (parentFs [("a/x/y", "a/x"), ("a/x/y/db", "a/x/y")])
      nestedConfig [] [] [] ⟨"a", [⟨"db", ⟨[], []⟩⟩]⟩ ["x/y"] [] "x" [] [] "y" [] []
      ⟨"db", ⟨[], []⟩⟩ rfl rfl rfl rfl rfl
      _ rfl _ rfl _ rfl _ rfl _ rfl _ rfl _ rfl _ rfl _ rfl).2.2.2.2.1 rfl rfl rfl rfl⟩

/-! ## Skipped combinations -/

/-- C3, counterexample: in a configuration with two resources named "r", the
first excluded from "dev" and the second not, the combination of the first
with "dev" and "eu" is excluded, yet the walk creates s/dev/eu/r and runs the
command with tags s,r,eu,dev there (for the second resource). -/
theorem skip_shadowed :
    ((∃ x ∈ ["dev"], EqualFold asciiFold "dev" x = true) ∨
      (∃ y ∈ ([] : List String), EqualFold asciiFold "eu" y = true)) ∧
    ((⟨"s", [⟨"r", ⟨["dev"], []⟩⟩, ⟨"r", ⟨[], []⟩⟩]⟩ : Subscription), "dev", "eu",
      (⟨"r", ⟨["dev"], []⟩⟩ : Resource)) ∈ combos shadowConfig ∧
    "s/dev/eu/r" ∈ mkdirCalls (walk asciiFold okSys shadowConfig ()).1 ∧
    ("terramate", ["create", "--tags", "s,r,eu,dev", "s/dev/eu/r"]) ∈
      cmdCalls (walk asciiFold okSys shadowConfig ()).1 :=
  ⟨Or.inl ⟨"dev", by simp, rfl⟩, by decide, by decide, by decide⟩

/-- C3 (amended): whatever the system does, when the environment
case-insensitively matches an excluded environment of the resource or the
region matches an excluded region, the iteration of the resource loop for that
combination issues nothing (no directory creation, no command, no log line)
and leaves the world as it was, and the resource loop and the region iteration
go on exactly as if that resource were not in the list; and the walk as a
whole issues no creation of `<subscription>/<environment>/<region>/<resource>`
and no command on that folder, provided no other directory of the walk (a
segment, or the leaf of a combination that is not skipped) has that path. -/
theorem skip_is_silent {W : Type} (uf : Char → Char → Bool) (sys : Sys W) (config : Config)
    (w : W) (sub : Subscription) (env region : String) (resource : Resource)
    (hs : (∃ x ∈ resource.ExcludeFrom.Environments, EqualFold uf env x = true) ∨
          (∃ y ∈ resource.ExcludeFrom.Regions, EqualFold uf region y = true))
    (hseg1 : ∀ s ∈ config.Subscriptions, s.Name ≠ pathOf sub env region resource)
    (hseg2 : ∀ s ∈ config.Subscriptions, ∀ e ∈ config.Environments,
      s.Name ++ "/" ++ e ≠ pathOf sub env region resource)
    (hseg3 : ∀ s ∈ config.Subscriptions, ∀ e ∈ config.Environments, ∀ g ∈ config.Regions,
      s.Name ++ "/" ++ e ++ "/" ++ g ≠ pathOf sub env region resource)
    (hleaf : ∀ s ∈ config.Subscriptions, ∀ r ∈ s.Resources, ∀ e ∈ config.Environments,
      ∀ g ∈ config.Regions, shouldSkip uf r e g = false →
      s.Name ++ "/" ++ e ++ "/" ++ g ++ "/" ++ r.Name ≠ pathOf sub env region resource) :
    pathOf sub env region resource ∉ mkdirCalls (walk uf sys config w).1 ∧
    (∀ name tags, (name, ["create", "--tags", tags, pathOf sub env region resource]) ∉
      cmdCalls (walk uf sys config w).1) ∧
    (∀ (regionFolder : String) (w1 : W),
      resourceBody uf sys sub env region regionFolder resource w1 = ([], w1)) ∧
    (∀ (regionFolder : String) (R1 R2 : List Resource) (w1 : W),
      forEach (resourceBody uf sys sub env region regionFolder) (R1 ++ resource :: R2) w1 =
        forEach (resourceBody uf sys sub env region regionFolder) (R1 ++ R2) w1) ∧
    (∀ (envFolder : String) (R1 R2 : List Resource) (w1 : W),
      regionBody uf sys ⟨sub.Name, R1 ++ resource :: R2⟩ env envFolder region w1 =
        regionBody uf sys ⟨sub.Name, R1 ++ R2⟩ env envFolder region w1) := by
  have hskip := (shouldSkip_iff uf resource env region).2 hs
  have h1 : ∀ (a : Subscription) (regionFolder : String) (w1 : W),
      resourceBody uf sys a env region regionFolder resource w1 = ([], w1) :=
    fun a regionFolder w1 => resourceBody_skip uf sys a env region regionFolder resource w1 hskip
  have h2 : ∀ (a : Subscription) (regionFolder : String) (R1 R2 : List Resource) (w1 : W),
      forEach (resourceBody uf sys a env region regionFolder) (R1 ++ resource :: R2) w1 =
        forEach (resourceBody uf sys a env region regionFolder) (R1 ++ R2) w1 := by
    intro a regionFolder R1 R2 w1
    rw [forEach_append, forEach_append, forEach_cons, h1]
    simp
  have h0 : ∀ (a b : Subscription) (regionFolder : String), a.Name = b.Name →
      resourceBody uf sys a env region regionFolder =
        resourceBody uf sys b env region regionFolder := by
    intro a b regionFolder hab
    funext r w1
    simp [resourceBody, hab]
  refine ⟨?_, ?_, h1 sub, h2 sub, ?_⟩
  · intro hmem
    rw [mkdirCalls, List.mem_filterMap] at hmem
    obtain ⟨ev, hev, hp⟩ := hmem
    have hv := walk_validMkdir uf sys config w ev hev
    cases ev with
    | mkdir path perm res =>
      simp only [mkdirOf, Option.some.injEq] at hp
      subst hp
      rcases hv with ⟨s, hs1, e1⟩ | ⟨s, hs1, e, he, e1⟩ | ⟨s, hs1, e, he, g, hg, e1⟩ |
        ⟨s, hs1, r, hr, e, he, g, hg, hsk, e1⟩
      · exact hseg1 s hs1 e1.symm
      · exact hseg2 s hs1 e he e1.symm
      · exact hseg3 s hs1 e he g hg e1.symm
      · exact hleaf s hs1 r hr e he g hg hsk e1.symm
    | readFile n => simp [mkdirOf] at hp
    | exec n a r => simp [mkdirOf] at hp
    | print m => simp [mkdirOf] at hp
  · intro name tags hmem
    rw [cmdCalls, List.mem_filterMap] at hmem
    obtain ⟨ev, hev, hp⟩ := hmem
    have hv := walk_valid uf sys config w ev hev
    cases ev with
    | exec n a r =>
      simp only [cmdOf, Option.some.injEq, Prod.mk.injEq] at hp
      obtain ⟨-, s, hs1, r1, hr, e, he, g, hg, hsk, e1⟩ := hv
      rw [hp.2] at e1
      simp only [List.cons.injEq, and_true, true_and] at e1
      exact hleaf s hs1 r1 hr e he g hg hsk e1.2.symm
    | readFile n => simp [cmdOf] at hp
    | mkdir a b c => simp [cmdOf] at hp
    | print m => simp [cmdOf] at hp
  · intro envFolder R1 R2 w1
    have e := h0 ⟨sub.Name, R1 ++ resource :: R2⟩ ⟨sub.Name, R1 ++ R2⟩
      (envFolder ++ "/" ++ region) rfl
    simp only [regionBody, h2, e]

theorem skip_is_silent_witness :
    ((∃ x ∈ ["prod"], EqualFold asciiFold "prod" x = true) ∨
      (∃ y ∈ ([] : List String), EqualFold asciiFold "eu" y = true)) ∧
    "payments/prod/eu/db" ∉
      mkdirCalls (walk asciiFold cmdFailSys exampleConfig ()).1 ∧
    (∀ name tags, (name, ["create", "--tags", tags, "payments/prod/eu/db"]) ∉
      cmdCalls (walk asciiFold cmdFailSys exampleConfig ()).1) :=
  ⟨Or.inl ⟨"prod", by simp, rfl⟩,
   (skip_is_silent asciiFold cmdFailSys exampleConfig ()
      ⟨"payments", [⟨"db", ⟨["prod"], []⟩⟩]⟩ "prod" "eu" ⟨"db", ⟨["prod"], []⟩⟩
      (Or.inl ⟨"prod", by simp, rfl⟩) (by decide) (by decide) (by decide) (by decide)).1,
   (skip_is_silent asciiFold cmdFailSys exampleConfig ()
      ⟨"payments", [⟨"db", ⟨["prod"], []⟩⟩]⟩ "prod" "eu" ⟨"db", ⟨["prod"], []⟩⟩
      (Or.inl ⟨"prod", by simp, rfl⟩) (by decide) (by decide) (by decide) (by decide)).2.1⟩

/-! ## Command invocations -/

/-- C5: whatever the outcomes of directory creations and commands, every
command invocation of the walk, and so of `main`, runs the executable
`terramate` with exactly the arguments `create`, `--tags`, T, P where, for a
subscription s of the configuration, a resource r of s, an environment e and a
region g of the configuration with `shouldSkip r e g` false, T is s.Name,
r.Name, g, e joined by commas and P is s.Name/e/g/r.Name. -/
theorem commands_wellformed {W : Type} (uf : Char → Char → Bool) (sys : Sys W) (w : W) :
    (∀ (config : Config) (name : String) (args : List String) (res : Option String),
      Event.exec name args res ∈ (walk uf sys config w).1 →
      name = "terramate" ∧
      ∃ sub ∈ config.Subscriptions, ∃ resource ∈ sub.Resources,
        ∃ env ∈ config.Environments, ∃ region ∈ config.Regions,
          shouldSkip uf resource env region = false ∧
          args = ["create", "--tags", ",".intercalate [sub.Name, resource.Name, region, env],
                  sub.Name ++ "/" ++ env ++ "/" ++ region ++ "/" ++ resource.Name]) ∧
    (∀ (name : String) (args : List String) (res : Option String),
      Event.exec name args res ∈ (main uf sys w).1 →
      name = "terramate" ∧
      ∃ config, (loadConfig sys "config.yml" w).1 = Except.ok config ∧
      ∃ sub ∈ config.Subscriptions, ∃ resource ∈ sub.Resources,
        ∃ env ∈ config.Environments, ∃ region ∈ config.Regions,
          shouldSkip uf resource env region = false ∧
          args = ["create", "--tags", ",".intercalate [sub.Name, resource.Name, region, env],
                  sub.Name ++ "/" ++ env ++ "/" ++ region ++ "/" ++ resource.Name]) := by
  refine ⟨fun config name args res hmem => walk_valid uf sys config w _ hmem, ?_⟩
  intro name args res hmem
  cases hl : (loadConfig sys "config.yml" w).1 with
  | error e =>
    rw [main_error uf sys w e hl] at hmem
    simp at hmem
  | ok config =>
    rw [main_ok uf sys w config hl] at hmem
    rcases List.mem_cons.1 hmem with h | h
    · cases h
    · have hv := walk_valid uf sys config _ _ h
      exact ⟨hv.1, config, rfl, hv.2⟩

theorem commands_wellformed_witness :
    Event.exec "terramate" ["create", "--tags", "payments,db,eu,dev", "payments/dev/eu/db"]
        (some "exit status 1") ∈ (main asciiFold cmdFailSys ()).1 ∧
    ∃ sub ∈ exampleConfig.Subscriptions, ∃ resource ∈ sub.Resources,
      ∃ env ∈ exampleConfig.Environments, ∃ region ∈ exampleConfig.Regions,
        shouldSkip asciiFold resource env region = false ∧
        ["create", "--tags", "payments,db,eu,dev", "payments/dev/eu/db"] =
          ["create", "--tags", ",".intercalate [sub.Name, resource.Name, region, env],
           sub.Name ++ "/" ++ env ++ "/" ++ region ++ "/" ++ resource.Name] :=
  ⟨by decide,
   ((commands_wellformed asciiFold cmdFailSys ()).1 exampleConfig "terramate"
      ["create", "--tags", "payments,db,eu,dev", "payments/dev/eu/db"]
      (some "exit status 1") (by decide)).2⟩

/-- C8: two runs of the walk over systems with the same directory creation
outcomes, whose commands have the same effect on the world and differ only in
the error they return, issue the same directory creations with the same
results, the same sequence of calls (directory creations and commands, same
folders and tags, same order) and end in the same world. Whichever commands
fail, the walk runs to the end of the configuration: it reaches every
subscription, and its calls are the whole enumeration of the configuration cut
only beneath the directory creations that failed (when none failed, every
directory and every command of every combination that is not skipped). -/
theorem command_errors_ignored {W : Type} (uf : Char → Char → Bool) (sys1 sys2 : Sys W)
    (hmk : sys1.mkdir = sys2.mkdir)
    (hrun : ∀ n a w, (sys1.run n a w).2 = (sys2.run n a w).2)
    (config : Config) (w : W) :
    mkdirResults (walk uf sys1 config w).1 = mkdirResults (walk uf sys2 config w).1 ∧
    calls (walk uf sys1 config w).1 = calls (walk uf sys2 config w).1 ∧
    cmdCalls (walk uf sys1 config w).1 = cmdCalls (walk uf sys2 config w).1 ∧
    (walk uf sys1 config w).2 = (walk uf sys2 config w).2 ∧
    (∀ sub ∈ config.Subscriptions, sub.Name ∈ mkdirCalls (walk uf sys1 config w).1) ∧
    (∀ F : String → Bool, followsF F (walk uf sys1 config w).1 = true →
      calls (walk uf sys1 config w).1 = guardedCalls uf F config) ∧
    (noMkdirFail (walk uf sys1 config w).1 = true →
      calls (walk uf sys1 config w).1 = subCalls uf config config.Subscriptions ∧
      cmdCalls (walk uf sys1 config w).1 = specCommands uf config) := by
  obtain ⟨h1, h2⟩ := walk_rel uf sys1 sys2 hmk hrun config w
  refine ⟨?_, ?_, ?_, h1, walk_reaches uf sys1 config w,
    fun F hF => walk_calls uf sys1 F config w hF,
    fun hok => ⟨walk_calls_ok uf sys1 config w hok, walk_cmdCalls_ok uf sys1 config w hok⟩⟩
  · rw [mkdirResults_observed, mkdirResults_observed, h2]
  · rw [calls_observed, calls_observed, h2]
  · rw [cmdCalls_observed, cmdCalls_observed, h2]

theorem command_errors_ignored_witness :
    cmdFailSys.mkdir = okSys.mkdir ∧
    (∀ (n : String) (a : List String) (w : Unit), (cmdFailSys.run n a w).2 = (okSys.run n a w).2) ∧
    calls (walk asciiFold cmdFailSys twoSubConfig ()).1 =
      calls (walk asciiFold okSys twoSubConfig ()).1 ∧
    "b" ∈ mkdirCalls (walk asciiFold cmdFailSys twoSubConfig ()).1 ∧
    cmdCalls (walk asciiFold cmdFailSys twoSubConfig ()).1 =
      [("terramate", ["create", "--tags", "a,db,eu,dev", "a/dev/eu/db"]),
       ("terramate", ["create", "--tags", "b,db,eu,dev", "b/dev/eu/db"])] :=
  ⟨rfl, fun _ _ _ => rfl,
   (command_errors_ignored asciiFold cmdFailSys okSys rfl (fun _ _ _ => rfl)
      twoSubConfig ()).2.1,
   (command_errors_ignored asciiFold cmdFailSys okSys rfl (fun _ _ _ => rfl)
      twoSubConfig ()).2.2.2.2.1 ⟨"b", [⟨"db", ⟨[], []⟩⟩]⟩ (by decide),
   by decide⟩

/-! ## Loading the configuration -/

/-- C10: `loadConfig` returns an error exactly when the file read fails or the
deserializer reports an error, and otherwise returns the deserialized
configuration as it is; when `loadConfig` returns an error, `main` prints a
message and ends having issued no directory creation and no command. -/
theorem loadConfig_spec {W : Type} (sys : Sys W) (w : W) :
    (∀ filename : String,
      (∃ e, (loadConfig sys filename w).1 = Except.error e) ↔
        ((∃ e, (sys.readFile filename w).1 = Except.error e) ∨
         (∃ data e, (sys.readFile filename w).1 = Except.ok data ∧
            sys.unmarshal data = Except.error e))) ∧
    (∀ (filename data : String) (config : Config),
      (sys.readFile filename w).1 = Except.ok data → sys.unmarshal data = Except.ok config →
      (loadConfig sys filename w).1 = Except.ok config) ∧
    (∀ (uf : Char → Char → Bool) (e : String),
      (loadConfig sys "config.yml" w).1 = Except.error e →
      (main uf sys w).1 =
        [Event.readFile "config.yml", Event.print ("Error loading config: " ++ e ++ "\n")] ∧
      mkdirCalls (main uf sys w).1 = [] ∧ cmdCalls (main uf sys w).1 = []) := by
  refine ⟨?_, ?_, ?_⟩
  · intro filename
    unfold loadConfig
    cases hr : sys.readFile filename w with
    | mk r w1 =>
      cases r with
      | error e => simp
      | ok data =>
        cases hu : sys.unmarshal data with
        | error e => simp [hu]
        | ok c => simp [hu]
  · intro filename data config hr hu
    unfold loadConfig
    cases hrw : sys.readFile filename w with
    | mk r w1 =>
      rw [hrw] at hr
      simp only at hr
      subst hr
      simp [hu]
  · intro uf e he
    rw [main_error uf sys w e he]
    exact ⟨rfl, rfl, rfl⟩

theorem loadConfig_spec_witness :
    (loadConfig noFileSys "config.yml" ()).1 =
      Except.error "failed to read file: open config.yml: no such file or directory" ∧
    (main asciiFold noFileSys ()).1 =
      [Event.readFile "config.yml",
       Event.print ("Error loading config: " ++
         "failed to read file: open config.yml: no such file or directory" ++ "\n")] :=
  ⟨rfl, ((loadConfig_spec noFileSys ()).2.2 asciiFold
      "failed to read file: open config.yml: no such file or directory" rfl).1⟩

/-! ## Running twice -/

/-- C9: over a filesystem that is the set of existing directories, where
creating an existing directory reports already-exists, a second walk over the
tree left by a first walk in which no directory creation failed has no failing
directory creation, leaves the set of existing directories unchanged and
invokes the same sequence of commands as the first (whatever the commands
return and whichever creations would be denied in either run). -/
theorem rerun_idempotent (uf : Char → Char → Bool)
    (denied1 denied2 : List String → String → Option String)
    (cmd1 cmd2 : String → List String → List String → Option String)
    (config : Config) (fs : List String)
    (hok : noMkdirFail (walk uf (fsSys denied1 cmd1) config fs).1 = true) :
    noMkdirFail (walk uf (fsSys denied2 cmd2) config
      (walk uf (fsSys denied1 cmd1) config fs).2).1 = true ∧
    (walk uf (fsSys denied2 cmd2) config (walk uf (fsSys denied1 cmd1) config fs).2).2 =
      (walk uf (fsSys denied1 cmd1) config fs).2 ∧
    cmdCalls (walk uf (fsSys denied2 cmd2) config
      (walk uf (fsSys denied1 cmd1) config fs).2).1 =
      cmdCalls (walk uf (fsSys denied1 cmd1) config fs).1 := by
  have hg := walk_grown uf (fsSys denied1 cmd1) (fsSys_mkdir_mono denied1 cmd1)
    (fsSys_mkdir_ok denied1 cmd1) (fsSys_run denied1 cmd1) config fs hok
  have hc := walk_calls_ok uf (fsSys denied1 cmd1) config fs hok
  have hall : ∀ p m, Call.mkdir p m ∈ subCalls uf config config.Subscriptions →
      p ∈ (walk uf (fsSys denied1 cmd1) config fs).2 := by
    intro p m hp
    apply hg.2
    rw [mkdirCalls_eq, hc, List.mem_filterMap]
    exact ⟨Call.mkdir p m, hp, rfl⟩
  obtain ⟨s1, s2⟩ := walk_stable uf (fsSys denied2 cmd2) (walk uf (fsSys denied1 cmd1) config fs).2
    (fun p m hp => fsSys_mkdir_exists denied2 cmd2 p m _ hp)
    (fun n a => fsSys_run denied2 cmd2 n a _) config hall
  refine ⟨s2, s1, ?_⟩
  rw [walk_cmdCalls_ok uf _ config _ s2, walk_cmdCalls_ok uf _ config _ hok]

theorem rerun_idempotent_witness :
    noMkdirFail (walk asciiFold (openFs (fun _ _ _ => none)) exampleConfig []).1 = true ∧
    (walk asciiFold (openFs (fun _ _ _ => none)) exampleConfig []).2 =
      ["payments/prod/us", "payments/prod/eu", "payments/prod", "payments/dev/us/db",
       "payments/dev/us", "payments/dev/eu/db", "payments/dev/eu", "payments/dev",
       "payments"] ∧
    (walk asciiFold (openFs (fun _ _ _ => some "exit status 1")) exampleConfig
      (walk asciiFold (openFs (fun _ _ _ => none)) exampleConfig []).2).2 =
      (walk asciiFold (openFs (fun _ _ _ => none)) exampleConfig []).2 :=
  ⟨by decide, by decide,
   (rerun_idempotent asciiFold (fun _ _ => none) (fun _ _ => none) (fun _ _ _ => none)
      (fun _ _ _ => some "exit status 1") exampleConfig [] (by decide)).2.1⟩

end Stacker
